import Mathlib

/-!
Shallow embedding of the android-web-mirror real-time relay and
control-arbitration engine.

The signaling server (src/apps/signaling/src/index.ts) is modelled as pure
functions over an explicit registry state: sessions are JS Map objects in
insertion order, modelled as lists; WebSocket sends become explicit outputs.
The device-side agent (src/apps/agent/src/index.ts) contributes the pointer
dead-zone state machine, the sequential command-queue drain loop and the
frame backpressure check.
-/

namespace Mirror

/-- Peer roles; the source (device-facing) role is called agent in the code. -/
inductive Role where
  | agent
  | controller
  | viewer
deriving DecidableEq

/-- A connected peer: id, role, and the state of its exclusively owned
WebSocket (readyState OPEN flag and bufferedAmount in bytes). -/
structure Peer where
  id : String
  role : Role
  wsOpen : Bool
  buffered : Nat
deriving DecidableEq

/-- A session aggregate; peers is the JS Map in insertion order. -/
structure Session where
  id : String
  emulatorId : String
  createdAt : Nat
  expiresAt : Nat
  lockOwnerPeerId : Option String
  peers : List Peer
deriving DecidableEq

/-- Payload of a verified session token. -/
structure TokenPayload where
  sessionId : String
  role : Role
deriving DecidableEq

/-- Signal envelope kinds (offer / answer / ice). -/
inductive SignalKind where
  | offer
  | answer
  | ice
deriving DecidableEq

/-- A frame envelope as accepted by frameSchema. -/
structure FrameMsg where
  mime : String
  dataBase64 : String
  ts : Int
deriving DecidableEq

/-- Lock actions. -/
inductive LockAction where
  | request
  | release
deriving DecidableEq

/-- The closed set of inbound envelope shapes the router matches
(zod schemas by tag); other means valid JSON matching no schema. -/
inductive ClientMsg where
  | hello (token : String)
  | signalMsg (kind : SignalKind) (payload : String)
  | frame (fr : FrameMsg)
  | control (event : String)
  | lockMsg (action : LockAction)
  | other
deriving DecidableEq

/-- Outbound JSON messages the server produces. -/
inductive OutMsg where
  | errorMsg (text : String)
  | helloAck (peerId : String) (role : Role) (sessionId : String) (emulatorId : String)
  | lockResult (granted : Bool) (ownerPeerId : Option String)
  | sessionState (sessionId : String) (lockOwnerPeerId : Option String)
      (peerList : List (String × Role))
  | forwarded (m : ClientMsg)
deriving DecidableEq

/-- Address of an outbound action: the connection the handler runs on,
or the socket owned by a given peer. -/
inductive Target where
  | self
  | peer (pid : String)
deriving DecidableEq

/-- Observable outputs: a delivered JSON send, or a ws.close call. -/
inductive Output where
  | send (dest : Target) (msg : OutMsg)
  | closeConn (dest : Target) (code : Nat) (reason : String)
deriving DecidableEq

/-- sendJson: delivers only when the target socket readyState is OPEN. -/
def sendJson (p : Peer) (msg : OutMsg) : List Output :=
  if p.wsOpen then [Output.send (Target.peer p.id) msg] else []

/-- sendJson on the handler's own (pre-handshake) socket. -/
def sendSelf (selfOpen : Bool) (msg : OutMsg) : List Output :=
  if selfOpen then [Output.send Target.self msg] else []

/-- broadcastSessionState: sends the session snapshot to every peer. -/
def broadcastSessionState (s : Session) : List Output :=
  s.peers.flatMap (fun p =>
    sendJson p (OutMsg.sessionState s.id s.lockOwnerPeerId
      (s.peers.map (fun q => (q.id, q.role)))))

/-- relayByRole: best-effort send to every peer with the given role. -/
def relayByRole (s : Session) (role : Role) (msg : OutMsg) : List Output :=
  s.peers.flatMap (fun p => if p.role = role then sendJson p msg else [])

/-- findSession: session lookup with lazy expiry; an expired session has
every peer notified and closed with 4001 and is removed from the registry. -/
def findSessionFn (now : Nat) (sessions : List Session) (sid : String) :
    Option Session × List Session × List Output :=
  match sessions.find? (fun s => s.id == sid) with
  | none => (none, sessions, [])
  | some s =>
      if s.expiresAt < now then
        (none, sessions.filter (fun t => !(t.id == sid)),
          s.peers.flatMap (fun p =>
            sendJson p (OutMsg.errorMsg "Session expired") ++
              [Output.closeConn (Target.peer p.id) 4001 "Session expired"]))
      else (some s, sessions, [])

/-- Write a mutated session object back into the registry (the JS code
mutates the Map entry in place). -/
def updateSession (sessions : List Session) (s : Session) : List Session :=
  sessions.map (fun t => if t.id = s.id then s else t)

/-- JS Map.set semantics on the peers list: replace in place if the key
exists, append otherwise. -/
def mapSet (ps : List Peer) (p : Peer) : List Peer :=
  if ps.any (fun q => q.id == p.id) then
    ps.map (fun q => if q.id = p.id then p else q)
  else ps ++ [p]

/-- Post-handshake dispatch of one parsed envelope, mirroring the schema
chain of ws.on message: signal, frame, control, lock, unknown. Returns the
updated session and the outputs. -/
def dispatch (s : Session) (sender : Peer) (m : ClientMsg) : Session × List Output :=
  match m with
  | ClientMsg.signalMsg k payload =>
      if sender.role = Role.agent then
        (s, relayByRole s Role.controller (OutMsg.forwarded (ClientMsg.signalMsg k payload)) ++
            relayByRole s Role.viewer (OutMsg.forwarded (ClientMsg.signalMsg k payload)))
      else
        (s, relayByRole s Role.agent (OutMsg.forwarded (ClientMsg.signalMsg k payload)))
  | ClientMsg.frame fr =>
      if sender.role = Role.agent then
        (s, relayByRole s Role.controller (OutMsg.forwarded (ClientMsg.frame fr)) ++
            relayByRole s Role.viewer (OutMsg.forwarded (ClientMsg.frame fr)))
      else (s, sendJson sender (OutMsg.errorMsg "Unknown message"))
  | ClientMsg.control ev =>
      if sender.role = Role.agent then
        (s, sendJson sender (OutMsg.errorMsg "Unknown message"))
      else if s.lockOwnerPeerId ≠ some sender.id then
        (s, sendJson sender (OutMsg.errorMsg "Not lock owner"))
      else
        (s, relayByRole s Role.agent (OutMsg.forwarded (ClientMsg.control ev)))
  | ClientMsg.lockMsg LockAction.request =>
      if s.lockOwnerPeerId = none ∨ s.lockOwnerPeerId = some sender.id then
        let s2 := { s with lockOwnerPeerId := some sender.id }
        (s2, sendJson sender (OutMsg.lockResult true (some sender.id)) ++
             broadcastSessionState s2)
      else
        (s, sendJson sender (OutMsg.lockResult false s.lockOwnerPeerId) ++
            broadcastSessionState s)
  | ClientMsg.lockMsg LockAction.release =>
      if s.lockOwnerPeerId = some sender.id then
        let s2 := { s with lockOwnerPeerId := none }
        (s2, broadcastSessionState s2)
      else (s, broadcastSessionState s)
  | ClientMsg.hello _ => (s, sendJson sender (OutMsg.errorMsg "Unknown message"))
  | ClientMsg.other => (s, sendJson sender (OutMsg.errorMsg "Unknown message"))

/-- One inbound message on an authenticated connection (peer already bound);
none models a payload that fails JSON.parse. -/
def handleAuthedMessage (now : Nat) (sessions : List Session) (sender : Peer)
    (sid : String) (msg : Option ClientMsg) : List Session × List Output :=
  match msg with
  | none => (sessions, sendJson sender (OutMsg.errorMsg "Invalid JSON message"))
  | some m =>
      match findSessionFn now sessions sid with
      | (none, sessions2, outs) =>
          (sessions2, outs ++ [Output.closeConn (Target.peer sender.id) 4004 "Session not found"])
      | (some s, sessions2, outs) =>
          (updateSession sessions2 (dispatch s sender m).1, outs ++ (dispatch s sender m).2)

/-- The freshly allocated peer of a successful handshake. -/
def hsNewPeer (tp : TokenPayload) (pid : String) (selfOpen : Bool) (selfBuffered : Nat) : Peer :=
  { id := pid, role := tp.role, wsOpen := selfOpen, buffered := selfBuffered }

/-- Attach the new peer to the session and, when the session has no lock
owner and the new peer is a controller, auto-acquire the lock. -/
def hsApplySession (s : Session) (tp : TokenPayload) (pid : String) (selfOpen : Bool)
    (selfBuffered : Nat) : Session :=
  if s.lockOwnerPeerId = none ∧ (hsNewPeer tp pid selfOpen selfBuffered).role = Role.controller then
    { s with peers := mapSet s.peers (hsNewPeer tp pid selfOpen selfBuffered), lockOwnerPeerId := some pid }
  else
    { s with peers := mapSet s.peers (hsNewPeer tp pid selfOpen selfBuffered) }

/-- The first message on a fresh connection: the handshake branch.
vres is the outcome of jwt.verify on the presented token (external
verifier); pid is the randomUUID allocated on success; selfOpen and
selfBuffered describe the connecting socket. -/
def handleFirstMessage (now : Nat) (sessions : List Session)
    (vres : Option TokenPayload) (pid : String) (selfOpen : Bool)
    (selfBuffered : Nat) (msg : Option ClientMsg) :
    List Session × Option Peer × Option String × List Output :=
  match msg with
  | none => (sessions, none, none, sendSelf selfOpen (OutMsg.errorMsg "Invalid JSON message"))
  | some (ClientMsg.hello _token) =>
      match vres with
      | none =>
          (sessions, none, none,
            sendSelf selfOpen (OutMsg.errorMsg "Invalid token") ++
              [Output.closeConn Target.self 4003 "Invalid token"])
      | some tp =>
          match findSessionFn now sessions tp.sessionId with
          | (none, sessions2, outs) =>
              (sessions2, none, none,
                outs ++ sendSelf selfOpen (OutMsg.errorMsg "Session not found") ++
                  [Output.closeConn Target.self 4004 "Session not found"])
          | (some s, sessions2, outs) =>
              (updateSession sessions2 (hsApplySession s tp pid selfOpen selfBuffered),
                some (hsNewPeer tp pid selfOpen selfBuffered), some tp.sessionId,
                outs ++
                  sendSelf selfOpen (OutMsg.helloAck pid tp.role tp.sessionId s.emulatorId) ++
                  broadcastSessionState (hsApplySession s tp pid selfOpen selfBuffered))
  | some _ =>
      (sessions, none, none,
        sendSelf selfOpen (OutMsg.errorMsg "First message must be hello") ++
          [Output.closeConn Target.self 4000 "Auth required"])

/-- Remove the disconnecting peer from the session's Map. -/
def removePeer (s : Session) (pid : String) : Session :=
  { s with peers := s.peers.filter (fun p => !(p.id == pid)) }

/-- Lock cleanup on disconnect: if the leaving peer held the lock, clear it
and hand it to the first remaining controller, if any. -/
def reassignAfterClose (s : Session) (pid : String) : Session :=
  if s.lockOwnerPeerId = some pid then
    match s.peers.find? (fun p => p.role == Role.controller) with
    | some q => { s with lockOwnerPeerId := some q.id }
    | none => { s with lockOwnerPeerId := none }
  else s

/-- The session after the disconnect cleanup: peer removed, then the lock
cleared and possibly reassigned. -/
def closedSession (s : Session) (pid : String) : Session :=
  reassignAfterClose (removePeer s pid) pid

/-- The ws close handler for an authenticated connection: registry update
and outputs (the session_state broadcast, or nothing when the session is
deleted or was already gone). -/
def closeSessions (sessions : List Session) (pid : String) (sid : String) :
    List Session × List Output :=
  match sessions.find? (fun s => s.id == sid) with
  | none => (sessions, [])
  | some s =>
      if (closedSession s pid).peers.isEmpty then
        (sessions.filter (fun t => !(t.id == sid)), [])
      else
        (updateSession sessions (closedSession s pid),
          broadcastSessionState (closedSession s pid))

/-- An authenticated live connection: the bound peer and session id. -/
structure Conn where
  peer : Peer
  sessionId : String
deriving DecidableEq

/-- Global server state: the session registry plus the authenticated
connections. -/
structure GState where
  sessions : List Session
  conns : List Conn
deriving DecidableEq

/-- Session bootstrap (POST /api/dev/sessions): a fresh empty session. -/
def createStep (g : GState) (sid emulatorId : String) (now expiresInSec : Nat) : GState :=
  { g with
    sessions := g.sessions ++
      [{ id := sid, emulatorId := emulatorId, createdAt := now,
         expiresAt := now + expiresInSec * 1000, lockOwnerPeerId := none, peers := [] }] }

/-- A first message on a fresh connection (handshake attempt). -/
def hsStep (g : GState) (now : Nat) (vres : Option TokenPayload) (pid : String)
    (selfOpen : Bool) (selfBuffered : Nat) (msg : Option ClientMsg) : GState :=
  { sessions := (handleFirstMessage now g.sessions vres pid selfOpen selfBuffered msg).1,
    conns := g.conns ++
      (match (handleFirstMessage now g.sessions vres pid selfOpen selfBuffered msg).2.1,
          (handleFirstMessage now g.sessions vres pid selfOpen selfBuffered msg).2.2.1 with
        | some p, some sid => [⟨p, sid⟩]
        | _, _ => []) }

/-- A message event on an authenticated connection. -/
def messageStep (g : GState) (c : Conn) (now : Nat) (msg : Option ClientMsg) : GState :=
  { g with sessions := (handleAuthedMessage now g.sessions c.peer c.sessionId msg).1 }

/-- A close event on an authenticated connection. -/
def closeStep (g : GState) (c : Conn) : GState :=
  { sessions := (closeSessions g.sessions c.peer.id c.sessionId).1,
    conns := g.conns.filter (fun d => !(d.peer.id == c.peer.id)) }

/-- A policy restricting which messages may occur on which connection,
used to state trace-restricted invariants. -/
def MsgPolicy : Type := Conn → Option ClientMsg → Prop

/-- Reachable registry states: any sequence of session bootstraps,
handshake attempts, authenticated messages and disconnects. The freshness
side conditions reflect randomUUID uniqueness of session and peer ids. -/
inductive Reachable (ok : MsgPolicy) : GState → Prop where
  | init : Reachable ok ⟨[], []⟩
  | create (g : GState) (sid emulatorId : String) (now ttlSec : Nat)
      (hfreshS : ∀ s ∈ g.sessions, s.id ≠ sid)
      (hfreshC : ∀ c ∈ g.conns, c.sessionId ≠ sid)
      (h : Reachable ok g) :
      Reachable ok (createStep g sid emulatorId now ttlSec)
  | handshake (g : GState) (now : Nat) (vres : Option TokenPayload) (pid : String)
      (selfOpen : Bool) (selfBuffered : Nat) (msg : Option ClientMsg)
      (hpidC : ∀ c ∈ g.conns, c.peer.id ≠ pid)
      (hpidS : ∀ s ∈ g.sessions, ∀ q ∈ s.peers, q.id ≠ pid)
      (h : Reachable ok g) :
      Reachable ok (hsStep g now vres pid selfOpen selfBuffered msg)
  | message (g : GState) (c : Conn) (now : Nat) (msg : Option ClientMsg)
      (hc : c ∈ g.conns) (hok : ok c msg)
      (h : Reachable ok g) :
      Reachable ok (messageStep g c now msg)
  | closeEv (g : GState) (c : Conn) (hc : c ∈ g.conns)
      (h : Reachable ok g) :
      Reachable ok (closeStep g c)

/-! Agent (device-side) model, from src/apps/agent/src/index.ts. -/

/-- Default outbound-buffer threshold (MAX_WS_BUFFERED_BYTES). -/
def MAX_WS_BUFFERED_BYTES : Nat := 1500000

/-- Default pointer-move dead-zone parameters. -/
def POINTER_MOVE_MIN_INTERVAL_MS : Int := 16

def POINTER_MOVE_MIN_DELTA_PX : Int := 8

/-- Configured dead-zone parameters (env-overridable in the code). -/
structure AgentCfg where
  moveMinIntervalMs : Int
  moveMinDeltaPx : Int
deriving DecidableEq

def defaultAgentCfg : AgentCfg :=
  ⟨POINTER_MOVE_MIN_INTERVAL_MS, POINTER_MOVE_MIN_DELTA_PX⟩

/-- Display size learned from the screenshot stream. -/
structure Display where
  width : Int
  height : Int
deriving DecidableEq

/-- JS Math.round on an exact rational: floor of x + 1/2 (ties toward plus
infinity). -/
def jsRound (q : ℚ) : Int := Int.floor (q + 1 / 2)

/-- resolvePoint: scale normalised coordinates by the current display, or
drop the event when no display size is known yet. -/
def resolvePoint (d : Option Display) (xNorm yNorm : ℚ) : Option (Int × Int) :=
  match d with
  | none => none
  | some dd => some (jsRound (xNorm * dd.width), jsRound (yNorm * dd.height))

inductive PtrAction where
  | down
  | move
  | up
deriving DecidableEq

/-- A pointer event as accepted by pointerEventSchema (the optional
timestampMs field is ignored by the handler, which uses Date.now). -/
structure PointerEvent where
  action : PtrAction
  xNorm : ℚ
  yNorm : ℚ
deriving DecidableEq

/-- Per-connection pointer state of the agent. -/
structure AgentPtrState where
  currentDisplay : Option Display
  touchActive : Bool
  lastMoveTs : Int
  lastSentX : Int
  lastSentY : Int
deriving DecidableEq

def initAgentPtrState : AgentPtrState := ⟨none, false, 0, 0, 0⟩

/-- A sendTouch call handed to the executor (time is the Date.now value at
enqueue; coalesce marks the enqueue-or-replace submission mode). -/
structure TouchCmd where
  action : PtrAction
  time : Int
  x : Int
  y : Int
  pressure : Nat
  coalesce : Bool
deriving DecidableEq

/-- The pointer branch of the agent message handler: dead-zone gating of
moves, unconditional forwarding of downs, forwarding of ups only while a
touch is active. -/
def handlePointer (cfg : AgentCfg) (st : AgentPtrState) (now : Int) (ev : PointerEvent) :
    AgentPtrState × Option TouchCmd :=
  match resolvePoint st.currentDisplay ev.xNorm ev.yNorm with
  | none => (st, none)
  | some (px, py) =>
      match ev.action with
      | PtrAction.down =>
          ({ st with touchActive := true, lastMoveTs := now, lastSentX := px, lastSentY := py },
            some ⟨PtrAction.down, now, px, py, 180, false⟩)
      | PtrAction.move =>
          if st.touchActive = true ∧ cfg.moveMinIntervalMs ≤ now - st.lastMoveTs ∧
              cfg.moveMinDeltaPx ≤ |px - st.lastSentX| + |py - st.lastSentY| then
            ({ st with lastMoveTs := now, lastSentX := px, lastSentY := py },
              some ⟨PtrAction.move, now, px, py, 180, true⟩)
          else (st, none)
      | PtrAction.up =>
          if st.touchActive = true then
            ({ st with touchActive := false }, some ⟨PtrAction.up, now, px, py, 0, false⟩)
          else (st, none)

/-- Run the pointer handler over a timed event sequence, collecting the
forwarded commands. -/
def runPointer (cfg : AgentCfg) : AgentPtrState → List (Int × PointerEvent) → List TouchCmd
  | _, [] => []
  | st, (now, ev) :: rest =>
      let r := handlePointer cfg st now ev
      r.2.toList ++ runPointer cfg r.1 rest

/-- The forwarded moves of an output trace. -/
def movesOnly (out : List TouchCmd) : List TouchCmd :=
  out.filter (fun c => c.action == PtrAction.move)

/-- The forwarded downs and moves of an output trace (the events that move
the dead-zone reference point). -/
def downMoves (out : List TouchCmd) : List TouchCmd :=
  out.filter (fun c => !(c.action == PtrAction.up))

/-- Separation constraint on a forwarded move relative to the previous
dead-zone reference command. -/
def moveSep (cfg : AgentCfg) (a b : TouchCmd) : Prop :=
  b.action = PtrAction.move →
    cfg.moveMinIntervalMs ≤ b.time - a.time ∧
      cfg.moveMinDeltaPx ≤ |b.x - a.x| + |b.y - a.y|

/-- Modelled from the spec (testable property for pointer moves): the
forwarded subsequence contains only moves separated by at least the
minimum interval and minimum displacement from the prior forwarded move,
and down and up events are always forwarded. -/
def specForwardedMovesProp (cfg : AgentCfg) (st : AgentPtrState)
    (input : List (Int × PointerEvent)) : Prop :=
  List.Chain'
    (fun a b =>
      cfg.moveMinIntervalMs ≤ b.time - a.time ∧
        cfg.moveMinDeltaPx ≤ |b.x - a.x| + |b.y - a.y|)
    (movesOnly (runPointer cfg st input)) ∧
  ((runPointer cfg st input).filter (fun c => c.action == PtrAction.down)).length =
    (input.filter (fun p => p.2.action == PtrAction.down)).length ∧
  ((runPointer cfg st input).filter (fun c => c.action == PtrAction.up)).length =
    (input.filter (fun p => p.2.action == PtrAction.up)).length

/-! The sequential command executor (processQueue / enqueue). -/

/-- Whether the deferred device call of an entry will fail. -/
inductive CmdOutcome where
  | ok
  | fails
deriving DecidableEq

/-- A queued deferred device call. -/
structure QEntry where
  label : Nat
  outcome : CmdOutcome
deriving DecidableEq

/-- What the worker observes for one executed entry: normal completion, or
a caught and logged failure. -/
inductive ExecResult where
  | done (label : Nat)
  | failedLogged (label : Nat)
deriving DecidableEq

/-- Await one entry inside the worker's try block: a failure is caught and
logged, never rethrown. -/
def execEntry (e : QEntry) : ExecResult :=
  match e.outcome with
  | CmdOutcome.ok => ExecResult.done e.label
  | CmdOutcome.fails => ExecResult.failedLogged e.label

/-- enqueue: ordered entries append to the FIFO tail, a coalesced move
replaces the pending slot. -/
def enqueueCmd (q : List QEntry) (p : Option QEntry) (e : QEntry) (coalesceMove : Bool) :
    List QEntry × Option QEntry :=
  if coalesceMove then (q, some e) else (q ++ [e], p)

/-- The worker loop of processQueue draining a queue state: ordered entries
first, then the pending coalesced move. -/
def drainLoop (q : List QEntry) (p : Option QEntry) : List ExecResult :=
  match q, p with
  | e :: rest, pending => execEntry e :: drainLoop rest pending
  | [], some m => execEntry m :: drainLoop [] none
  | [], none => []
termination_by q.length * 2 + p.toList.length
decreasing_by
  · simp
  · simp

/-! The screenshot stream data handler (frame capture side). -/

/-- A frame from the gRPC screenshot stream. -/
structure RawFrame where
  imageLen : Nat
  width : Int
  height : Int
deriving DecidableEq

/-- State of the agent's single upstream WebSocket. -/
structure AgentWsState where
  wsOpen : Bool
  buffered : Nat
deriving DecidableEq

/-- screenshotStream on data: update the display size when the frame
carries positive dimensions, then send the binary image unless it is
empty, the socket is not open, or more than maxBuffered bytes are already
buffered. Returns the new display and whether the frame was sent. -/
def handleScreenshotData (maxBuffered : Nat) (d : Option Display) (ws : AgentWsState)
    (fr : RawFrame) : Option Display × Bool :=
  let d2 := if 0 < fr.width ∧ 0 < fr.height then some ⟨fr.width, fr.height⟩ else d
  if fr.imageLen = 0 then (d2, false)
  else if ws.wsOpen = false then (d2, false)
  else if maxBuffered < ws.buffered then (d2, false)
  else (d2, true)

/-! Concrete inputs used by individual counterexamples and witnesses. -/

/-- Trivial message policy: any message on any connection. -/
def anyMsg : MsgPolicy := fun _ _ => True

/-- The policy in which source-role peers never send lock envelopes. -/
def nonSourceLock : MsgPolicy := fun c m =>
  (∃ a, m = some (ClientMsg.lockMsg a)) → c.peer.role ≠ Role.agent

/-- A registry state with one session and one controller peer, reached by a
bootstrap followed by a successful controller handshake. -/
def c1G : GState :=
  hsStep (createStep ⟨[], []⟩ "S" "emu" 0 60) 1 (some ⟨"S", Role.controller⟩) "P"
    true 0 (some (ClientMsg.hello "t"))

def c1Session : Session :=
  { id := "S", emulatorId := "emu", createdAt := 0, expiresAt := 60000,
    lockOwnerPeerId := some "P", peers := [⟨"P", Role.controller, true, 0⟩] }

/-- A registry state with one session and one agent peer. -/
def c2G : GState :=
  hsStep (createStep ⟨[], []⟩ "S" "emu" 0 60) 1 (some ⟨"S", Role.agent⟩) "A"
    true 0 (some (ClientMsg.hello "t"))

/-- The same state after the agent peer sent a lock request. -/
def c2G2 : GState :=
  messageStep c2G ⟨⟨"A", Role.agent, true, 0⟩, "S"⟩ 2 (some (ClientMsg.lockMsg LockAction.request))

/-- A controller-only trace for the amended C2 invariant. -/
def c2AmG : GState :=
  messageStep c1G ⟨⟨"P", Role.controller, true, 0⟩, "S"⟩ 2
    (some (ClientMsg.lockMsg LockAction.request))

def c3Agent : Peer := ⟨"A", Role.agent, true, 0⟩

def c3Congested : Peer := ⟨"B", Role.controller, true, 2000000⟩

def c3Clear : Peer := ⟨"C", Role.controller, true, 0⟩

def c3Session : Session := ⟨"S", "emu", 0, 10000, none, [c3Agent, c3Congested, c3Clear]⟩

def c3Frame : FrameMsg := ⟨"image/png", "AAAA", 0⟩

/-- Pointer state with a known 100 by 100 display and no active touch. -/
def c4St : AgentPtrState := ⟨some ⟨100, 100⟩, false, 0, 0, 0⟩

/-- down at x 0; forwarded move at x 10; a second down at x 12; then a move
at x 4, within the dead zone of the previous move but outside the dead
zone of the second down. -/
def c4Input : List (Int × PointerEvent) :=
  [(0, ⟨PtrAction.down, 0, 0⟩),
   (20, ⟨PtrAction.move, 1/10, 0⟩),
   (30, ⟨PtrAction.down, 3/25, 0⟩),
   (50, ⟨PtrAction.move, 1/25, 0⟩)]

def c5OutsNoJson : List Output := [Output.send Target.self (OutMsg.errorMsg "Invalid JSON message")]

/-- Does an output list contain any ws.close call? -/
def hasClose (outs : List Output) : Bool :=
  outs.any (fun o =>
    match o with
    | Output.closeConn _ _ _ => true
    | Output.send _ _ => false)

/-- The ws.close calls addressed to the connecting socket itself. -/
def selfCloses (outs : List Output) : List (Nat × String) :=
  outs.filterMap (fun o =>
    match o with
    | Output.closeConn Target.self c r => some (c, r)
    | _ => none)

/-- No peer was created: every session in the new registry is one of the
old session objects, unchanged. -/
def noNewPeers (old new : List Session) : Prop := ∀ s ∈ new, s ∈ old

def c6Session : Session := ⟨"S", "emu", 0, 10000, none, [⟨"A", Role.agent, true, 0⟩, ⟨"B", Role.controller, true, 0⟩]⟩

def c6Sender : Peer := ⟨"B", Role.controller, true, 0⟩

def c7Owner : Peer := ⟨"B", Role.controller, true, 0⟩

def c7Next : Peer := ⟨"C", Role.controller, true, 0⟩

def c7Session : Session := ⟨"S", "emu", 0, 10000, some "B", [⟨"A", Role.agent, true, 0⟩, c7Owner, c7Next]⟩

def c8Session : Session := ⟨"S", "emu", 0, 10000, some "B", [⟨"A", Role.agent, true, 0⟩, ⟨"B", Role.controller, true, 0⟩, ⟨"V", Role.viewer, true, 0⟩]⟩

/-- Well-formedness of the registry state: a set lock owner references a
present peer; peer ids are unique inside a session; session ids are
unique; an authenticated connection's peer object is in its session's
map; authenticated connections carry pairwise distinct peer ids. -/
def GWF (g : GState) : Prop :=
  (∀ s ∈ g.sessions, ∀ o, s.lockOwnerPeerId = some o → o ∈ s.peers.map Peer.id) ∧
  (∀ s ∈ g.sessions, (s.peers.map Peer.id).Nodup) ∧
  ((g.sessions.map Session.id).Nodup) ∧
  (∀ c ∈ g.conns, ∀ s ∈ g.sessions, s.id = c.sessionId → c.peer ∈ s.peers) ∧
  ((g.conns.map (fun c => c.peer.id)).Nodup)

/-- The lock owner, when set, is never a source-role peer. -/
def OwnerNotAgent (g : GState) : Prop :=
  ∀ s ∈ g.sessions, ∀ p ∈ s.peers, s.lockOwnerPeerId = some p.id → ¬ p.role = Role.agent

/-! Helper lemmas. -/

theorem peer_eq_of_id_eq {ps : List Peer} (hnd : (ps.map Peer.id).Nodup) {p q : Peer}
    (hp : p ∈ ps) (hq : q ∈ ps) (h : p.id = q.id) : p = q :=
  List.inj_on_of_nodup_map hnd hp hq h

theorem mem_relayByRole_iff (s : Session) (role : Role) (msg : OutMsg) (p : Peer)
    (hp : p ∈ s.peers) (hnd : (s.peers.map Peer.id).Nodup) :
    Output.send (Target.peer p.id) msg ∈ relayByRole s role msg ↔
      (p.role = role ∧ p.wsOpen = true) := by
  constructor
  · intro hmem
    rcases List.mem_flatMap.1 hmem with ⟨q, hq, hq2⟩
    by_cases hr : q.role = role
    · by_cases ho : q.wsOpen = true
      · have hid : p.id = q.id := by
          simp [sendJson, hr, ho] at hq2
          exact hq2
        have := peer_eq_of_id_eq hnd hp hq hid
        subst this
        exact ⟨hr, ho⟩
      · simp [sendJson, hr, ho] at hq2
    · simp [hr] at hq2
  · rintro ⟨hrole, hopen⟩
    exact List.mem_flatMap.2 ⟨p, hp, by simp [sendJson, hrole, hopen]⟩

/-! Claim C9: a failed device call is logged and the drain continues with
every remaining entry. -/

theorem drainLoop_eq_map (q : List QEntry) (p : Option QEntry) :
    drainLoop q p = (q ++ p.toList).map execEntry := by
  induction q with
  | nil => cases p <;> simp [drainLoop]
  | cons e rest ih => simp [drainLoop, ih]

/-- C9: if the currently executing device call fails, the failure is
recorded as logged and every remaining queued entry, ordered entries and
the pending coalesced move alike, is still executed afterwards in order. -/
theorem mirror_C9 (q1 q2 : List QEntry) (e : QEntry) (p : Option QEntry)
    (hfail : e.outcome = CmdOutcome.fails) :
    drainLoop (q1 ++ e :: q2) p =
      q1.map execEntry ++
        ExecResult.failedLogged e.label ::
          (q2.map execEntry ++ p.toList.map execEntry) := by
  simp [drainLoop_eq_map, execEntry, hfail]

theorem mirror_C9_witness :
    drainLoop [⟨1, CmdOutcome.ok⟩, ⟨2, CmdOutcome.fails⟩, ⟨3, CmdOutcome.ok⟩]
        (some ⟨4, CmdOutcome.ok⟩) =
      [ExecResult.done 1, ExecResult.failedLogged 2, ExecResult.done 3,
        ExecResult.done 4] := by
  simpa using
    mirror_C9 [⟨1, CmdOutcome.ok⟩] [⟨3, CmdOutcome.ok⟩] ⟨2, CmdOutcome.fails⟩
      (some ⟨4, CmdOutcome.ok⟩) rfl

/-! Claim C3: frame relay and backpressure. -/

/-- C3 counterexample: the signaling relay delivers a frame to an open
controller peer whose connection has two million bytes buffered, above the
only configured threshold in the system. -/
theorem mirror_C3_counterexample :
    MAX_WS_BUFFERED_BYTES < c3Congested.buffered ∧
    Output.send (Target.peer c3Congested.id) (OutMsg.forwarded (ClientMsg.frame c3Frame)) ∈
      (dispatch c3Session c3Agent (ClientMsg.frame c3Frame)).2 := by
  constructor
  · decide
  · decide

/-- C3 amended: the signaling relay delivers a frame from the source to
every controller and viewer peer whose socket is open, regardless of
buffered bytes; the buffered-bytes threshold is enforced only on the
agent's single upstream connection, which skips a captured frame exactly
when it is empty, the socket is not open, or bufferedAmount exceeds the
threshold. -/
theorem mirror_C3_amended :
    (∀ (s : Session) (sender : Peer) (fr : FrameMsg) (p : Peer),
        sender.role = Role.agent → p ∈ s.peers → (s.peers.map Peer.id).Nodup →
        (Output.send (Target.peer p.id) (OutMsg.forwarded (ClientMsg.frame fr)) ∈
            (dispatch s sender (ClientMsg.frame fr)).2 ↔
          (p.wsOpen = true ∧ (p.role = Role.controller ∨ p.role = Role.viewer)))) ∧
    (∀ (maxB : Nat) (d : Option Display) (ws : AgentWsState) (fr : RawFrame),
        ((handleScreenshotData maxB d ws fr).2 = true ↔
          (fr.imageLen ≠ 0 ∧ ws.wsOpen = true ∧ ws.buffered ≤ maxB))) := by
  constructor
  · intro s sender fr p hrole hp hnd
    have hd : (dispatch s sender (ClientMsg.frame fr)).2 =
        relayByRole s Role.controller (OutMsg.forwarded (ClientMsg.frame fr)) ++
          relayByRole s Role.viewer (OutMsg.forwarded (ClientMsg.frame fr)) := by
      simp [dispatch, hrole]
    rw [hd, List.mem_append,
      mem_relayByRole_iff s Role.controller _ p hp hnd,
      mem_relayByRole_iff s Role.viewer _ p hp hnd]
    tauto
  · intro maxB d ws fr
    unfold handleScreenshotData
    split_ifs with h1 h2 h3 <;> simp_all

theorem mirror_C3_amended_witness :
    Output.send (Target.peer c3Clear.id) (OutMsg.forwarded (ClientMsg.frame c3Frame)) ∈
      (dispatch c3Session c3Agent (ClientMsg.frame c3Frame)).2 :=
  (mirror_C3_amended.1 c3Session c3Agent c3Frame c3Clear rfl (by decide) (by decide)).2
    (by decide)

/-! Claim C4: pointer-move dead-zone. -/

theorem downMoves_cons_notup (c : TouchCmd) (l : List TouchCmd)
    (h : c.action ≠ PtrAction.up) : downMoves (c :: l) = c :: downMoves l := by
  simp [downMoves, List.filter_cons, h]

theorem downMoves_cons_up (c : TouchCmd) (l : List TouchCmd)
    (h : c.action = PtrAction.up) : downMoves (c :: l) = downMoves l := by
  simp [downMoves, List.filter_cons, h]

theorem runPointer_chain_aux (cfg : AgentCfg) :
    ∀ (input : List (Int × PointerEvent)) (st : AgentPtrState),
      List.Chain' (moveSep cfg) (downMoves (runPointer cfg st input)) ∧
      (∀ c, (downMoves (runPointer cfg st input)).head? = some c →
        c.action = PtrAction.move →
        cfg.moveMinIntervalMs ≤ c.time - st.lastMoveTs ∧
          cfg.moveMinDeltaPx ≤ |c.x - st.lastSentX| + |c.y - st.lastSentY|) := by
  intro input
  induction input with
  | nil =>
      intro st
      simp [runPointer, downMoves]
  | cons pe rest ih =>
      intro st
      obtain ⟨now, ev⟩ := pe
      have hrun : runPointer cfg st ((now, ev) :: rest) =
          (handlePointer cfg st now ev).2.toList ++
            runPointer cfg (handlePointer cfg st now ev).1 rest := rfl
      rcases hres : resolvePoint st.currentDisplay ev.xNorm ev.yNorm with _ | ⟨px, py⟩
      · have hstep : handlePointer cfg st now ev = (st, none) := by
          simp [handlePointer, hres]
        rw [hrun, hstep]
        simpa using ih st
      · cases ha : ev.action with
        | down =>
            have hstep : handlePointer cfg st now ev =
                (⟨st.currentDisplay, true, now, px, py⟩,
                  some ⟨PtrAction.down, now, px, py, 180, false⟩) := by
              simp [handlePointer, hres, ha]
            rw [hrun, hstep]
            have hih := ih ⟨st.currentDisplay, true, now, px, py⟩
            simp only [Option.toList_some, List.singleton_append]
            rw [downMoves_cons_notup _ _ (by simp)]
            constructor
            · rw [List.chain'_cons']
              refine ⟨?_, hih.1⟩
              intro b hb hbm
              have := hih.2 b (Option.mem_def.mp hb) hbm
              simpa using this
            · intro c hc hcm
              simp only [List.head?_cons, Option.some.injEq] at hc
              rw [← hc] at hcm
              exact PtrAction.noConfusion hcm
        | move =>
            by_cases hcond : st.touchActive = true ∧
                cfg.moveMinIntervalMs ≤ now - st.lastMoveTs ∧
                cfg.moveMinDeltaPx ≤ |px - st.lastSentX| + |py - st.lastSentY|
            · have hstep : handlePointer cfg st now ev =
                  (⟨st.currentDisplay, st.touchActive, now, px, py⟩,
                    some ⟨PtrAction.move, now, px, py, 180, true⟩) := by
                simp [handlePointer, hres, ha, hcond]
              rw [hrun, hstep]
              have hih := ih ⟨st.currentDisplay, st.touchActive, now, px, py⟩
              simp only [Option.toList_some, List.singleton_append]
              rw [downMoves_cons_notup _ _ (by simp)]
              constructor
              · rw [List.chain'_cons']
                refine ⟨?_, hih.1⟩
                intro b hb hbm
                have := hih.2 b (Option.mem_def.mp hb) hbm
                simpa using this
              · intro c hc hcm
                simp only [List.head?_cons, Option.some.injEq] at hc
                rw [← hc]
                exact ⟨hcond.2.1, hcond.2.2⟩
            · have hstep : handlePointer cfg st now ev = (st, none) := by
                simp only [handlePointer, hres, ha]
                rw [if_neg hcond]
              rw [hrun, hstep]
              simpa using ih st
        | up =>
            by_cases hact : st.touchActive = true
            · have hstep : handlePointer cfg st now ev =
                  (⟨st.currentDisplay, false, st.lastMoveTs, st.lastSentX, st.lastSentY⟩,
                    some ⟨PtrAction.up, now, px, py, 0, false⟩) := by
                simp [handlePointer, hres, ha, hact]
              rw [hrun, hstep]
              have hih := ih ⟨st.currentDisplay, false, st.lastMoveTs, st.lastSentX, st.lastSentY⟩
              simp only [Option.toList_some, List.singleton_append]
              rw [downMoves_cons_up _ _ rfl]
              exact ⟨hih.1, fun c hc hcm => hih.2 c hc hcm⟩
            · have hstep : handlePointer cfg st now ev = (st, none) := by
                simp [handlePointer, hres, ha, hact]
              rw [hrun, hstep]
              simpa using ih st

/-- C4 counterexample: with the default dead-zone configuration, a down
event between two forwarded moves resets the reference point, so the
second forwarded move is only 6 pixels away from the first forwarded move,
below the 8 pixel minimum claimed for consecutive forwarded moves. -/
theorem mirror_C4_counterexample :
    ¬ specForwardedMovesProp defaultAgentCfg c4St c4Input := by
  have hrun : runPointer defaultAgentCfg c4St c4Input =
      [⟨PtrAction.down, 0, 0, 0, 180, false⟩,
        ⟨PtrAction.move, 20, 10, 0, 180, true⟩,
        ⟨PtrAction.down, 30, 12, 0, 180, false⟩,
        ⟨PtrAction.move, 50, 4, 0, 180, true⟩] := by
    simp only [runPointer, handlePointer, resolvePoint, jsRound, c4St, c4Input,
      defaultAgentCfg, POINTER_MOVE_MIN_INTERVAL_MS, POINTER_MOVE_MIN_DELTA_PX]
    norm_num
  intro h
  have hchain := h.1
  rw [hrun] at hchain
  have hmoves : movesOnly
      [⟨PtrAction.down, 0, 0, 0, 180, false⟩,
        ⟨PtrAction.move, 20, 10, 0, 180, true⟩,
        ⟨PtrAction.down, 30, 12, 0, 180, false⟩,
        ⟨PtrAction.move, 50, 4, 0, 180, true⟩] =
      [⟨PtrAction.move, 20, 10, 0, 180, true⟩, ⟨PtrAction.move, 50, 4, 0, 180, true⟩] := rfl
  rw [hmoves] at hchain
  have hpair := (List.chain'_cons.mp hchain).1
  exact absurd hpair (by decide)

/-- C4 amended: each forwarded move is at least the minimum interval and
the minimum Manhattan displacement away from the previously forwarded
non-up command (down or move) — the dead-zone reference is reset by downs;
a down is forwarded exactly when display dimensions are known; an up is
forwarded exactly when display dimensions are known and a touch is
active. -/
theorem mirror_C4_amended (cfg : AgentCfg) :
    (∀ (st : AgentPtrState) (input : List (Int × PointerEvent)),
        List.Chain' (moveSep cfg) (downMoves (runPointer cfg st input))) ∧
    (∀ (st : AgentPtrState) (now : Int) (ev : PointerEvent),
        ev.action = PtrAction.down →
        ((handlePointer cfg st now ev).2.isSome ↔ st.currentDisplay.isSome)) ∧
    (∀ (st : AgentPtrState) (now : Int) (ev : PointerEvent),
        ev.action = PtrAction.up →
        ((handlePointer cfg st now ev).2.isSome ↔
          (st.currentDisplay.isSome ∧ st.touchActive = true))) := by
  refine ⟨fun st input => (runPointer_chain_aux cfg input st).1, ?_, ?_⟩
  · intro st now ev ha
    rcases hd : st.currentDisplay with _ | dd
    · simp [handlePointer, resolvePoint, hd]
    · simp [handlePointer, resolvePoint, hd, ha]
  · intro st now ev ha
    rcases hd : st.currentDisplay with _ | dd
    · simp [handlePointer, resolvePoint, hd]
    · by_cases hact : st.touchActive = true <;>
        simp [handlePointer, resolvePoint, hd, ha, hact]

theorem mirror_C4_amended_witness :
    List.Chain' (moveSep defaultAgentCfg) (downMoves (runPointer defaultAgentCfg c4St c4Input)) ∧
    ((handlePointer defaultAgentCfg c4St 5 ⟨PtrAction.down, 0, 0⟩).2.isSome ↔
      c4St.currentDisplay.isSome) ∧
    ((handlePointer defaultAgentCfg c4St 5 ⟨PtrAction.up, 0, 0⟩).2.isSome ↔
      (c4St.currentDisplay.isSome ∧ c4St.touchActive = true)) :=
  ⟨(mirror_C4_amended defaultAgentCfg).1 c4St c4Input,
    (mirror_C4_amended defaultAgentCfg).2.1 c4St 5 ⟨PtrAction.down, 0, 0⟩ rfl,
    (mirror_C4_amended defaultAgentCfg).2.2 c4St 5 ⟨PtrAction.up, 0, 0⟩ rfl⟩

/-! Signaling-side helper lemmas. -/

theorem mem_broadcastSessionState (s : Session) (p : Peer) (hp : p ∈ s.peers)
    (hop : p.wsOpen = true) :
    Output.send (Target.peer p.id)
        (OutMsg.sessionState s.id s.lockOwnerPeerId (s.peers.map fun q => (q.id, q.role))) ∈
      broadcastSessionState s := by
  unfold broadcastSessionState
  exact List.mem_flatMap.2 ⟨p, hp, by simp [sendJson, hop]⟩

theorem dispatch_lock_request_granted (s : Session) (sender : Peer)
    (h : s.lockOwnerPeerId = none ∨ s.lockOwnerPeerId = some sender.id) :
    dispatch s sender (ClientMsg.lockMsg LockAction.request) =
      ({ s with lockOwnerPeerId := some sender.id },
        sendJson sender (OutMsg.lockResult true (some sender.id)) ++
          broadcastSessionState { s with lockOwnerPeerId := some sender.id }) := by
  simp only [dispatch]
  rw [if_pos h]

theorem dispatch_lock_request_denied (s : Session) (sender : Peer)
    (h : ¬(s.lockOwnerPeerId = none ∨ s.lockOwnerPeerId = some sender.id)) :
    dispatch s sender (ClientMsg.lockMsg LockAction.request) =
      (s, sendJson sender (OutMsg.lockResult false s.lockOwnerPeerId) ++
        broadcastSessionState s) := by
  simp only [dispatch]
  rw [if_neg h]

theorem dispatch_lock_release_owner (s : Session) (sender : Peer)
    (h : s.lockOwnerPeerId = some sender.id) :
    dispatch s sender (ClientMsg.lockMsg LockAction.release) =
      ({ s with lockOwnerPeerId := none },
        broadcastSessionState { s with lockOwnerPeerId := none }) := by
  simp only [dispatch]
  rw [if_pos h]

theorem dispatch_lock_release_other (s : Session) (sender : Peer)
    (h : ¬ s.lockOwnerPeerId = some sender.id) :
    dispatch s sender (ClientMsg.lockMsg LockAction.release) =
      (s, broadcastSessionState s) := by
  simp only [dispatch]
  rw [if_neg h]

/-! Claim C6: lock request semantics. -/

/-- C6: a lock request from peer P is granted, transitioning to locked P,
whenever the session is unlocked or already locked by P (idempotent
re-grant), with reply lock_result granted true owner P; otherwise it is
denied with the current owner in the reply and the state unchanged. -/
theorem mirror_C6 (s : Session) (sender : Peer) (hop : sender.wsOpen = true) :
    ((s.lockOwnerPeerId = none ∨ s.lockOwnerPeerId = some sender.id) →
        (dispatch s sender (ClientMsg.lockMsg LockAction.request)).1 =
          { s with lockOwnerPeerId := some sender.id } ∧
        Output.send (Target.peer sender.id) (OutMsg.lockResult true (some sender.id)) ∈
          (dispatch s sender (ClientMsg.lockMsg LockAction.request)).2) ∧
    (¬(s.lockOwnerPeerId = none ∨ s.lockOwnerPeerId = some sender.id) →
        (dispatch s sender (ClientMsg.lockMsg LockAction.request)).1 = s ∧
        Output.send (Target.peer sender.id) (OutMsg.lockResult false s.lockOwnerPeerId) ∈
          (dispatch s sender (ClientMsg.lockMsg LockAction.request)).2) := by
  constructor
  · intro h
    rw [dispatch_lock_request_granted s sender h]
    exact ⟨rfl, by simp [sendJson, hop]⟩
  · intro h
    rw [dispatch_lock_request_denied s sender h]
    exact ⟨rfl, by simp [sendJson, hop]⟩

theorem mirror_C6_witness :
    (dispatch c6Session c6Sender (ClientMsg.lockMsg LockAction.request)).1 =
      { c6Session with lockOwnerPeerId := some c6Sender.id } ∧
    Output.send (Target.peer c6Sender.id) (OutMsg.lockResult true (some c6Sender.id)) ∈
      (dispatch c6Session c6Sender (ClientMsg.lockMsg LockAction.request)).2 :=
  (mirror_C6 c6Session c6Sender rfl).1 (Or.inl rfl)

/-! Claim C10: every lock envelope triggers a session_state broadcast. -/

/-- C10: after handling any lock envelope (request or release, granted,
denied or no-op), a session_state snapshot of the resulting state is sent
to every open peer of the session. -/
theorem mirror_C10 (s : Session) (sender : Peer) (a : LockAction) (p : Peer)
    (hp : p ∈ s.peers) (hop : p.wsOpen = true) :
    (dispatch s sender (ClientMsg.lockMsg a)).1.peers = s.peers ∧
    Output.send (Target.peer p.id)
        (OutMsg.sessionState (dispatch s sender (ClientMsg.lockMsg a)).1.id
          (dispatch s sender (ClientMsg.lockMsg a)).1.lockOwnerPeerId
          ((dispatch s sender (ClientMsg.lockMsg a)).1.peers.map fun q => (q.id, q.role))) ∈
      (dispatch s sender (ClientMsg.lockMsg a)).2 := by
  cases a with
  | request =>
      by_cases h : s.lockOwnerPeerId = none ∨ s.lockOwnerPeerId = some sender.id
      · rw [dispatch_lock_request_granted s sender h]
        exact ⟨rfl, List.mem_append_right _ (mem_broadcastSessionState _ p hp hop)⟩
      · rw [dispatch_lock_request_denied s sender h]
        exact ⟨rfl, List.mem_append_right _ (mem_broadcastSessionState _ p hp hop)⟩
  | release =>
      by_cases h : s.lockOwnerPeerId = some sender.id
      · rw [dispatch_lock_release_owner s sender h]
        exact ⟨rfl, mem_broadcastSessionState _ p hp hop⟩
      · rw [dispatch_lock_release_other s sender h]
        exact ⟨rfl, mem_broadcastSessionState _ p hp hop⟩

theorem mirror_C10_witness :
    (dispatch c8Session ⟨"V", Role.viewer, true, 0⟩ (ClientMsg.lockMsg LockAction.request)).1.peers =
      c8Session.peers ∧
    Output.send (Target.peer "V")
        (OutMsg.sessionState
          (dispatch c8Session ⟨"V", Role.viewer, true, 0⟩ (ClientMsg.lockMsg LockAction.request)).1.id
          (dispatch c8Session ⟨"V", Role.viewer, true, 0⟩ (ClientMsg.lockMsg LockAction.request)).1.lockOwnerPeerId
          ((dispatch c8Session ⟨"V", Role.viewer, true, 0⟩ (ClientMsg.lockMsg LockAction.request)).1.peers.map
            fun q => (q.id, q.role))) ∈
      (dispatch c8Session ⟨"V", Role.viewer, true, 0⟩ (ClientMsg.lockMsg LockAction.request)).2 :=
  mirror_C10 c8Session ⟨"V", Role.viewer, true, 0⟩ LockAction.request
    ⟨"V", Role.viewer, true, 0⟩ (by decide) rfl

/-! Claim C8: control envelopes require the lock. -/

/-- C8: a control envelope from a non-source peer is rejected with a
not-lock-owner error and nothing is relayed unless the sender is the
current lock owner, in which case it is relayed to every source peer. -/
theorem mirror_C8 (s : Session) (sender : Peer) (ev : String)
    (hrole : sender.role ≠ Role.agent) :
    (s.lockOwnerPeerId ≠ some sender.id →
        dispatch s sender (ClientMsg.control ev) =
          (s, sendJson sender (OutMsg.errorMsg "Not lock owner")) ∧
        (sender.wsOpen = true →
          Output.send (Target.peer sender.id) (OutMsg.errorMsg "Not lock owner") ∈
            (dispatch s sender (ClientMsg.control ev)).2)) ∧
    (s.lockOwnerPeerId = some sender.id →
        dispatch s sender (ClientMsg.control ev) =
          (s, relayByRole s Role.agent (OutMsg.forwarded (ClientMsg.control ev))) ∧
        (∀ p ∈ s.peers, p.role = Role.agent → p.wsOpen = true →
          Output.send (Target.peer p.id) (OutMsg.forwarded (ClientMsg.control ev)) ∈
            (dispatch s sender (ClientMsg.control ev)).2)) := by
  constructor
  · intro h
    have hd : dispatch s sender (ClientMsg.control ev) =
        (s, sendJson sender (OutMsg.errorMsg "Not lock owner")) := by
      simp only [dispatch]
      rw [if_neg hrole, if_pos h]
    refine ⟨hd, fun hop => ?_⟩
    rw [hd]
    simp [sendJson, hop]
  · intro h
    have hd : dispatch s sender (ClientMsg.control ev) =
        (s, relayByRole s Role.agent (OutMsg.forwarded (ClientMsg.control ev))) := by
      simp only [dispatch]
      rw [if_neg hrole, if_neg (by simp [h])]
    refine ⟨hd, fun p hp hprole hpop => ?_⟩
    rw [hd]
    exact List.mem_flatMap.2 ⟨p, hp, by simp [sendJson, hprole, hpop]⟩

theorem mirror_C8_witness :
    dispatch c8Session ⟨"B", Role.controller, true, 0⟩ (ClientMsg.control "tap") =
      (c8Session,
        relayByRole c8Session Role.agent (OutMsg.forwarded (ClientMsg.control "tap"))) ∧
    Output.send (Target.peer "A") (OutMsg.forwarded (ClientMsg.control "tap")) ∈
      (dispatch c8Session ⟨"B", Role.controller, true, 0⟩ (ClientMsg.control "tap")).2 := by
  have h := (mirror_C8 c8Session ⟨"B", Role.controller, true, 0⟩ "tap" (by decide)).2 rfl
  exact ⟨h.1, h.2 ⟨"A", Role.agent, true, 0⟩ (by decide) rfl rfl⟩

/-! Lemmas about findSessionFn, updateSession and the close handler. -/

theorem findSessionFn_sessions (now : Nat) (sessions : List Session) (sid : String) :
    (findSessionFn now sessions sid).2.1 = sessions ∨
      (findSessionFn now sessions sid).2.1 = sessions.filter (fun t => !(t.id == sid)) := by
  unfold findSessionFn
  cases hf : sessions.find? (fun s => s.id == sid) with
  | none => left; rfl
  | some s =>
      by_cases h : s.expiresAt < now
      · right; simp [h]
      · left; simp [h]

theorem findSessionFn_found (now : Nat) (sessions : List Session) (sid : String) (s : Session)
    (h : (findSessionFn now sessions sid).1 = some s) :
    s ∈ sessions ∧ s.id = sid ∧ (findSessionFn now sessions sid).2.1 = sessions ∧
      (findSessionFn now sessions sid).2.2 = [] := by
  unfold findSessionFn at h ⊢
  cases hf : sessions.find? (fun t => t.id == sid) with
  | none =>
      rw [hf] at h
      cases h
  | some t =>
      rw [hf] at h
      dsimp only at h ⊢
      by_cases hexp : t.expiresAt < now
      · rw [if_pos hexp] at h
        simp at h
      · rw [if_neg hexp] at h ⊢
        have ht : t = s := by simpa using h
        subst ht
        refine ⟨List.mem_of_find?_eq_some hf, ?_, rfl, rfl⟩
        have := List.find?_some hf
        simpa using this

theorem updateSession_mem {l : List Session} {s t : Session} (ht : t ∈ updateSession l s) :
    t = s ∨ (t ∈ l ∧ ¬ t.id = s.id) := by
  unfold updateSession at ht
  rcases List.mem_map.1 ht with ⟨u, hu, heq⟩
  by_cases h : u.id = s.id
  · rw [if_pos h] at heq; left; exact heq.symm
  · rw [if_neg h] at heq; right; rw [← heq]; exact ⟨hu, h⟩

theorem updateSession_map_id (l : List Session) (s : Session) :
    (updateSession l s).map Session.id = l.map Session.id := by
  unfold updateSession
  rw [List.map_map]
  refine List.map_congr_left ?_
  intro t _
  by_cases h : t.id = s.id
  · simp [h]
  · simp [h]

theorem find?_session_eq (l : List Session) (s : Session) (sid : String)
    (hnd : (l.map Session.id).Nodup) (hs : s ∈ l) (hid : s.id = sid) :
    l.find? (fun t => t.id == sid) = some s := by
  induction l with
  | nil => cases hs
  | cons a tl ih =>
      rw [List.map_cons, List.nodup_cons] at hnd
      rcases List.mem_cons.1 hs with rfl | hs2
      · exact List.find?_cons_of_pos _ (by simp [hid])
      · by_cases ha : a.id = sid
        · exfalso
          apply hnd.1
          rw [ha, ← hid]
          exact List.mem_map_of_mem Session.id hs2
        · rw [List.find?_cons_of_neg _ (by simp [ha])]
          exact ih hnd.2 hs2

theorem removePeer_peers (s : Session) (pid : String) :
    (removePeer s pid).peers = s.peers.filter (fun p => !(p.id == pid)) := rfl

theorem reassignAfterClose_peers (t : Session) (pid : String) :
    (reassignAfterClose t pid).peers = t.peers := by
  unfold reassignAfterClose
  split_ifs with h
  · cases hf : t.peers.find? (fun p => p.role == Role.controller) <;> simp [hf]
  · rfl

theorem reassignAfterClose_id (t : Session) (pid : String) :
    (reassignAfterClose t pid).id = t.id := by
  unfold reassignAfterClose
  split_ifs with h
  · cases hf : t.peers.find? (fun p => p.role == Role.controller) <;> simp [hf]
  · rfl

theorem closedSession_peers (s : Session) (pid : String) :
    (closedSession s pid).peers = s.peers.filter (fun p => !(p.id == pid)) := by
  rw [closedSession, reassignAfterClose_peers, removePeer_peers]

theorem closedSession_id (s : Session) (pid : String) :
    (closedSession s pid).id = s.id := by
  rw [closedSession, reassignAfterClose_id]
  rfl

/-! Claim C7: disconnect cleanup. -/

/-- C7: on disconnect the peer is removed from the session; if it held the
lock, the lock goes to the first remaining controller if one exists and is
cleared otherwise; an emptied session is deleted with no broadcast, and
otherwise the post-cleanup state (reassignment already applied) is
broadcast to the remaining open peers. -/
theorem mirror_C7 (sessions : List Session) (pid sid : String) (s : Session)
    (hnd : (sessions.map Session.id).Nodup) (hs : s ∈ sessions) (hid : s.id = sid) :
    pid ∉ (closedSession s pid).peers.map Peer.id ∧
    (s.lockOwnerPeerId = some pid →
        ((∃ q, (removePeer s pid).peers.find? (fun p => p.role == Role.controller) = some q ∧
            (closedSession s pid).lockOwnerPeerId = some q.id ∧ q.role = Role.controller ∧
            q ∈ (closedSession s pid).peers) ∨
          ((removePeer s pid).peers.find? (fun p => p.role == Role.controller) = none ∧
            (closedSession s pid).lockOwnerPeerId = none))) ∧
    (¬ s.lockOwnerPeerId = some pid →
        (closedSession s pid).lockOwnerPeerId = s.lockOwnerPeerId) ∧
    ((closedSession s pid).peers = [] →
        (∀ t ∈ (closeSessions sessions pid sid).1, ¬ t.id = sid) ∧
        (closeSessions sessions pid sid).2 = []) ∧
    (¬ (closedSession s pid).peers = [] →
        (closeSessions sessions pid sid).2 = broadcastSessionState (closedSession s pid) ∧
        (∀ t ∈ (closeSessions sessions pid sid).1, t.id = sid → t = closedSession s pid) ∧
        (∀ p ∈ (closedSession s pid).peers, p.wsOpen = true →
          Output.send (Target.peer p.id)
              (OutMsg.sessionState (closedSession s pid).id (closedSession s pid).lockOwnerPeerId
                ((closedSession s pid).peers.map fun q => (q.id, q.role))) ∈
            (closeSessions sessions pid sid).2)) := by
  have hfind : sessions.find? (fun t => t.id == sid) = some s :=
    find?_session_eq sessions s sid hnd hs hid
  refine ⟨?_, ?_, ?_, ?_, ?_⟩
  · intro hmem
    rw [closedSession_peers] at hmem
    rcases List.mem_map.1 hmem with ⟨p, hp, hpid⟩
    have := (List.mem_filter.1 hp).2
    rw [hpid] at this
    simp at this
  · intro h
    have hcond : (removePeer s pid).lockOwnerPeerId = some pid := h
    unfold closedSession reassignAfterClose
    rw [if_pos hcond]
    cases hf : (removePeer s pid).peers.find? (fun p => p.role == Role.controller) with
    | none => right; exact ⟨rfl, rfl⟩
    | some q =>
        left
        refine ⟨q, rfl, rfl, ?_, ?_⟩
        · have := List.find?_some hf
          simpa using this
        · have hq := List.mem_of_find?_eq_some hf
          simpa using hq
  · intro h
    have h2 : ¬ (removePeer s pid).lockOwnerPeerId = some pid := h
    unfold closedSession reassignAfterClose
    rw [if_neg h2]
    rfl
  · intro hempty
    have hemp : (closedSession s pid).peers.isEmpty = true := by
      rw [hempty]; rfl
    have hcs : closeSessions sessions pid sid =
        (sessions.filter (fun t => !(t.id == sid)), []) := by
      simp only [closeSessions, hfind]
      rw [if_pos hemp]
    rw [hcs]
    refine ⟨?_, rfl⟩
    intro t ht hteq
    have := (List.mem_filter.1 ht).2
    rw [hteq] at this
    simp at this
  · intro hne
    have hemp : ¬ (closedSession s pid).peers.isEmpty = true := by
      simpa [List.isEmpty_iff] using hne
    have hcs : closeSessions sessions pid sid =
        (updateSession sessions (closedSession s pid),
          broadcastSessionState (closedSession s pid)) := by
      simp only [closeSessions, hfind]
      rw [if_neg hemp]
    rw [hcs]
    refine ⟨rfl, ?_, ?_⟩
    · intro t ht hteq
      rcases updateSession_mem ht with rfl | ⟨_, hne2⟩
      · rfl
      · exfalso
        apply hne2
        rw [hteq, closedSession_id, hid]
    · intro p hp hop
      exact mem_broadcastSessionState _ p hp hop

theorem mirror_C7_witness :
    ¬ (closedSession c7Session "B").peers = [] ∧
    ((closeSessions [c7Session] "B" "S").2 =
        broadcastSessionState (closedSession c7Session "B") ∧
      (∀ t ∈ (closeSessions [c7Session] "B" "S").1, t.id = "S" → t = closedSession c7Session "B") ∧
      (∀ p ∈ (closedSession c7Session "B").peers, p.wsOpen = true →
        Output.send (Target.peer p.id)
            (OutMsg.sessionState (closedSession c7Session "B").id
              (closedSession c7Session "B").lockOwnerPeerId
              ((closedSession c7Session "B").peers.map fun q => (q.id, q.role))) ∈
          (closeSessions [c7Session] "B" "S").2)) :=
  ⟨by decide,
    (mirror_C7 [c7Session] "B" "S" c7Session (by decide) (by decide) rfl).2.2.2.2 (by decide)⟩

/-! Claim C5: handshake failure handling. -/

theorem selfCloses_append (a b : List Output) :
    selfCloses (a ++ b) = selfCloses a ++ selfCloses b := by
  simp [selfCloses]

theorem selfCloses_sendJson (p : Peer) (m : OutMsg) : selfCloses (sendJson p m) = [] := by
  unfold sendJson
  split_ifs <;> rfl

theorem selfCloses_sendSelf (so : Bool) (m : OutMsg) : selfCloses (sendSelf so m) = [] := by
  unfold sendSelf
  split_ifs <;> rfl

theorem selfCloses_findSessionFn (now : Nat) (sessions : List Session) (sid : String) :
    selfCloses (findSessionFn now sessions sid).2.2 = [] := by
  unfold findSessionFn
  cases hf : sessions.find? (fun s => s.id == sid) with
  | none => rfl
  | some s =>
      by_cases h : s.expiresAt < now
      · simp only [h, if_true]
        have : ∀ ps : List Peer,
            selfCloses (ps.flatMap fun p =>
              sendJson p (OutMsg.errorMsg "Session expired") ++
                [Output.closeConn (Target.peer p.id) 4001 "Session expired"]) = [] := by
          intro ps
          induction ps with
          | nil => rfl
          | cons a tl ih =>
              rw [List.flatMap_cons, selfCloses_append, selfCloses_append,
                selfCloses_sendJson, ih]
              rfl
        exact this s.peers
      · simp only [h, if_false]
        rfl

/-- C5 counterexample: a first message that is not valid JSON is answered
with an error envelope but the connection is not closed, contrary to the
claim that any non-hello first message closes the connection with a
distinguishable reason. -/
theorem mirror_C5_counterexample :
    (handleFirstMessage 0 [] none "P" true 0 none).2.1 = none ∧
    (handleFirstMessage 0 [] none "P" true 0 none).2.2.2 =
      [Output.send Target.self (OutMsg.errorMsg "Invalid JSON message")] ∧
    hasClose (handleFirstMessage 0 [] none "P" true 0 none).2.2.2 = false := by
  refine ⟨rfl, rfl, rfl⟩

/-- C5 amended: a first message that parses as JSON but is not a hello
envelope closes the connection with 4000 Auth required; a hello whose
credential fails verification closes with 4003 Invalid token; a hello
whose session cannot be found closes with 4004 Session not found; a first
message that is not valid JSON only gets an error reply and the connection
stays open; in every one of these cases no Peer is created and every
surviving session is unchanged. -/
theorem mirror_C5_amended (now : Nat) (sessions : List Session) (vres : Option TokenPayload)
    (pid : String) (so : Bool) (sb : Nat) (msg : Option ClientMsg) :
    ((handleFirstMessage now sessions vres pid so sb msg).2.1 = none →
        noNewPeers sessions (handleFirstMessage now sessions vres pid so sb msg).1) ∧
    (msg = none →
        (handleFirstMessage now sessions vres pid so sb msg).2.1 = none ∧
        selfCloses (handleFirstMessage now sessions vres pid so sb msg).2.2.2 = []) ∧
    (∀ m, msg = some m → (∀ t, ¬ m = ClientMsg.hello t) →
        (handleFirstMessage now sessions vres pid so sb msg).2.1 = none ∧
        selfCloses (handleFirstMessage now sessions vres pid so sb msg).2.2.2 =
          [(4000, "Auth required")]) ∧
    (∀ t, msg = some (ClientMsg.hello t) → vres = none →
        (handleFirstMessage now sessions vres pid so sb msg).2.1 = none ∧
        selfCloses (handleFirstMessage now sessions vres pid so sb msg).2.2.2 =
          [(4003, "Invalid token")]) ∧
    (∀ t tp, msg = some (ClientMsg.hello t) → vres = some tp →
        (findSessionFn now sessions tp.sessionId).1 = none →
        (handleFirstMessage now sessions vres pid so sb msg).2.1 = none ∧
        selfCloses (handleFirstMessage now sessions vres pid so sb msg).2.2.2 =
          [(4004, "Session not found")]) := by
  refine ⟨?_, ?_, ?_, ?_, ?_⟩
  · intro hnone
    cases msg with
    | none => intro t ht; exact ht
    | some m =>
        cases m with
        | hello tok =>
            cases vres with
            | none => intro t ht; exact ht
            | some tp =>
                rcases hfs : (findSessionFn now sessions tp.sessionId).1 with _ | s
                · have hsx := findSessionFn_sessions now sessions tp.sessionId
                  have hr : (handleFirstMessage now sessions (some tp) pid so sb
                      (some (ClientMsg.hello tok))).1 =
                      (findSessionFn now sessions tp.sessionId).2.1 := by
                    simp only [handleFirstMessage]
                    rcases hmatch : findSessionFn now sessions tp.sessionId with ⟨fs, s2, o2⟩
                    cases fs with
                    | none => rfl
                    | some u =>
                        rw [hmatch] at hfs
                        simp at hfs
                  rw [hr]
                  rcases hsx with hsx | hsx
                  · rw [hsx]; intro t ht; exact ht
                  · rw [hsx]; intro t ht; exact (List.mem_filter.1 ht).1
                · exfalso
                  have : (handleFirstMessage now sessions (some tp) pid so sb
                      (some (ClientMsg.hello tok))).2.1 =
                      some (hsNewPeer tp pid so sb) := by
                    simp only [handleFirstMessage]
                    rcases hmatch : findSessionFn now sessions tp.sessionId with ⟨fs, s2, o2⟩
                    cases fs with
                    | none =>
                        rw [hmatch] at hfs
                        simp at hfs
                    | some u => rfl
                  rw [this] at hnone
                  cases hnone
        | signalMsg k payload => intro t ht; exact ht
        | frame fr => intro t ht; exact ht
        | control ev => intro t ht; exact ht
        | lockMsg a => intro t ht; exact ht
        | other => intro t ht; exact ht
  · rintro rfl
    refine ⟨rfl, ?_⟩
    rw [show (handleFirstMessage now sessions vres pid so sb none).2.2.2 =
        sendSelf so (OutMsg.errorMsg "Invalid JSON message") from rfl, selfCloses_sendSelf]
  · rintro m rfl hnh
    cases m with
    | hello tok => exact absurd rfl (hnh tok)
    | signalMsg k payload =>
        refine ⟨rfl, ?_⟩
        rw [show (handleFirstMessage now sessions vres pid so sb
            (some (ClientMsg.signalMsg k payload))).2.2.2 =
            sendSelf so (OutMsg.errorMsg "First message must be hello") ++
              [Output.closeConn Target.self 4000 "Auth required"] from rfl,
          selfCloses_append, selfCloses_sendSelf]
        rfl
    | frame fr =>
        refine ⟨rfl, ?_⟩
        rw [show (handleFirstMessage now sessions vres pid so sb
            (some (ClientMsg.frame fr))).2.2.2 =
            sendSelf so (OutMsg.errorMsg "First message must be hello") ++
              [Output.closeConn Target.self 4000 "Auth required"] from rfl,
          selfCloses_append, selfCloses_sendSelf]
        rfl
    | control ev =>
        refine ⟨rfl, ?_⟩
        rw [show (handleFirstMessage now sessions vres pid so sb
            (some (ClientMsg.control ev))).2.2.2 =
            sendSelf so (OutMsg.errorMsg "First message must be hello") ++
              [Output.closeConn Target.self 4000 "Auth required"] from rfl,
          selfCloses_append, selfCloses_sendSelf]
        rfl
    | lockMsg a =>
        refine ⟨rfl, ?_⟩
        rw [show (handleFirstMessage now sessions vres pid so sb
            (some (ClientMsg.lockMsg a))).2.2.2 =
            sendSelf so (OutMsg.errorMsg "First message must be hello") ++
              [Output.closeConn Target.self 4000 "Auth required"] from rfl,
          selfCloses_append, selfCloses_sendSelf]
        rfl
    | other =>
        refine ⟨rfl, ?_⟩
        rw [show (handleFirstMessage now sessions vres pid so sb
            (some ClientMsg.other)).2.2.2 =
            sendSelf so (OutMsg.errorMsg "First message must be hello") ++
              [Output.closeConn Target.self 4000 "Auth required"] from rfl,
          selfCloses_append, selfCloses_sendSelf]
        rfl
  · rintro t rfl rfl
    refine ⟨rfl, ?_⟩
    rw [show (handleFirstMessage now sessions none pid so sb
        (some (ClientMsg.hello t))).2.2.2 =
        sendSelf so (OutMsg.errorMsg "Invalid token") ++
          [Output.closeConn Target.self 4003 "Invalid token"] from rfl,
      selfCloses_append, selfCloses_sendSelf]
    rfl
  · rintro t tp rfl rfl hnone
    have hr : handleFirstMessage now sessions (some tp) pid so sb
        (some (ClientMsg.hello t)) =
        ((findSessionFn now sessions tp.sessionId).2.1, none, none,
          (findSessionFn now sessions tp.sessionId).2.2 ++
            sendSelf so (OutMsg.errorMsg "Session not found") ++
              [Output.closeConn Target.self 4004 "Session not found"]) := by
      simp only [handleFirstMessage]
      rcases hmatch : findSessionFn now sessions tp.sessionId with ⟨fs, s2, o2⟩
      cases fs with
      | none => rfl
      | some u =>
          rw [hmatch] at hnone
          simp at hnone
    rw [hr]
    refine ⟨rfl, ?_⟩
    dsimp only
    rw [selfCloses_append, selfCloses_append, selfCloses_findSessionFn, selfCloses_sendSelf]
    rfl

theorem mirror_C5_amended_witness :
    (handleFirstMessage 0 [] (some ⟨"S", Role.controller⟩) "P" true 0
        (some (ClientMsg.hello "t"))).2.1 = none ∧
    selfCloses (handleFirstMessage 0 [] (some ⟨"S", Role.controller⟩) "P" true 0
        (some (ClientMsg.hello "t"))).2.2.2 = [(4004, "Session not found")] :=
  (mirror_C5_amended 0 [] (some ⟨"S", Role.controller⟩) "P" true 0
      (some (ClientMsg.hello "t"))).2.2.2.2 "t" ⟨"S", Role.controller⟩ rfl rfl rfl

/-! Characterization lemmas for the step functions. -/

theorem mapSet_fresh (ps : List Peer) (p : Peer) (h : ∀ q ∈ ps, q.id ≠ p.id) :
    mapSet ps p = ps ++ [p] := by
  have hcond : ¬ ps.any (fun q => q.id == p.id) = true := by
    rw [List.any_eq_true]
    rintro ⟨q, hq, hbeq⟩
    exact h q hq (by simpa using hbeq)
  unfold mapSet
  rw [if_neg hcond]

theorem hsApplySession_peers (s : Session) (tp : TokenPayload) (pid : String) (so : Bool)
    (sb : Nat) (h : ∀ q ∈ s.peers, q.id ≠ pid) :
    (hsApplySession s tp pid so sb).peers = s.peers ++ [hsNewPeer tp pid so sb] := by
  unfold hsApplySession
  split_ifs <;> exact mapSet_fresh s.peers _ h

theorem hsApplySession_id (s : Session) (tp : TokenPayload) (pid : String) (so : Bool)
    (sb : Nat) : (hsApplySession s tp pid so sb).id = s.id := by
  unfold hsApplySession
  split_ifs <;> rfl

theorem hsApplySession_owner (s : Session) (tp : TokenPayload) (pid : String) (so : Bool)
    (sb : Nat) :
    (hsApplySession s tp pid so sb).lockOwnerPeerId = s.lockOwnerPeerId ∨
      ((hsApplySession s tp pid so sb).lockOwnerPeerId = some pid ∧
        s.lockOwnerPeerId = none ∧ tp.role = Role.controller) := by
  unfold hsApplySession
  split_ifs with h
  · right
    exact ⟨rfl, h.1, h.2⟩
  · left
    rfl

theorem handleFirstMessage_shape (now : Nat) (sessions : List Session)
    (vres : Option TokenPayload) (pid : String) (so : Bool) (sb : Nat)
    (msg : Option ClientMsg) :
    ((handleFirstMessage now sessions vres pid so sb msg).2.1 = none ∧
      (handleFirstMessage now sessions vres pid so sb msg).2.2.1 = none ∧
      ((handleFirstMessage now sessions vres pid so sb msg).1 = sessions ∨
        ∃ sid, (handleFirstMessage now sessions vres pid so sb msg).1 =
          sessions.filter (fun t => !(t.id == sid)))) ∨
    (∃ tp t s, vres = some tp ∧ msg = some (ClientMsg.hello t) ∧
      (findSessionFn now sessions tp.sessionId).1 = some s ∧
      (handleFirstMessage now sessions vres pid so sb msg).1 =
        updateSession sessions (hsApplySession s tp pid so sb) ∧
      (handleFirstMessage now sessions vres pid so sb msg).2.1 =
        some (hsNewPeer tp pid so sb) ∧
      (handleFirstMessage now sessions vres pid so sb msg).2.2.1 = some tp.sessionId) := by
  cases msg with
  | none => exact Or.inl ⟨rfl, rfl, Or.inl rfl⟩
  | some m =>
      cases m with
      | hello tok =>
          cases vres with
          | none => exact Or.inl ⟨rfl, rfl, Or.inl rfl⟩
          | some tp =>
              have hsx := findSessionFn_sessions now sessions tp.sessionId
              simp only [handleFirstMessage]
              rcases hmatch : findSessionFn now sessions tp.sessionId with ⟨fs, s2, o2⟩
              rw [hmatch] at hsx
              cases fs with
              | none =>
                  left
                  refine ⟨rfl, rfl, ?_⟩
                  rcases hsx with hsx | hsx
                  · exact Or.inl hsx
                  · exact Or.inr ⟨tp.sessionId, hsx⟩
              | some s =>
                  right
                  have hfound := findSessionFn_found now sessions tp.sessionId s
                    (by rw [hmatch])
                  have hs2 : s2 = sessions := by
                    have := hfound.2.2.1
                    rw [hmatch] at this
                    exact this
                  subst hs2
                  exact ⟨tp, tok, s, rfl, rfl, by rw [hmatch], rfl, rfl, rfl⟩
      | signalMsg k payload => exact Or.inl ⟨rfl, rfl, Or.inl rfl⟩
      | frame fr => exact Or.inl ⟨rfl, rfl, Or.inl rfl⟩
      | control ev => exact Or.inl ⟨rfl, rfl, Or.inl rfl⟩
      | lockMsg a => exact Or.inl ⟨rfl, rfl, Or.inl rfl⟩
      | other => exact Or.inl ⟨rfl, rfl, Or.inl rfl⟩

theorem dispatch_fst (s : Session) (sender : Peer) (m : ClientMsg) :
    (dispatch s sender m).1 = s ∨
      ((∃ a, m = ClientMsg.lockMsg a) ∧
        ((dispatch s sender m).1 = { s with lockOwnerPeerId := some sender.id } ∨
          (dispatch s sender m).1 = { s with lockOwnerPeerId := none })) := by
  cases m with
  | hello tok => exact Or.inl rfl
  | other => exact Or.inl rfl
  | signalMsg k payload =>
      by_cases h : sender.role = Role.agent <;> simp [dispatch, h]
  | frame fr =>
      by_cases h : sender.role = Role.agent <;> simp [dispatch, h]
  | control ev =>
      by_cases h : sender.role = Role.agent
      · simp [dispatch, h]
      · by_cases h2 : s.lockOwnerPeerId = some sender.id <;> simp [dispatch, h, h2]
  | lockMsg a =>
      cases a with
      | request =>
          by_cases h : s.lockOwnerPeerId = none ∨ s.lockOwnerPeerId = some sender.id
          · rw [dispatch_lock_request_granted s sender h]
            exact Or.inr ⟨⟨LockAction.request, rfl⟩, Or.inl rfl⟩
          · rw [dispatch_lock_request_denied s sender h]
            exact Or.inl rfl
      | release =>
          by_cases h : s.lockOwnerPeerId = some sender.id
          · rw [dispatch_lock_release_owner s sender h]
            exact Or.inr ⟨⟨LockAction.release, rfl⟩, Or.inr rfl⟩
          · rw [dispatch_lock_release_other s sender h]
            exact Or.inl rfl

theorem handleAuthedMessage_fst (now : Nat) (sessions : List Session) (sender : Peer)
    (sid : String) (msg : Option ClientMsg) :
    (handleAuthedMessage now sessions sender sid msg).1 = sessions ∨
    (handleAuthedMessage now sessions sender sid msg).1 =
      sessions.filter (fun t => !(t.id == sid)) ∨
    (∃ s m, msg = some m ∧ (findSessionFn now sessions sid).1 = some s ∧
      (handleAuthedMessage now sessions sender sid msg).1 =
        updateSession sessions (dispatch s sender m).1) := by
  cases msg with
  | none => exact Or.inl rfl
  | some m =>
      have hsx := findSessionFn_sessions now sessions sid
      simp only [handleAuthedMessage]
      rcases hmatch : findSessionFn now sessions sid with ⟨fs, s2, o2⟩
      rw [hmatch] at hsx
      cases fs with
      | none =>
          rcases hsx with hsx | hsx
          · exact Or.inl hsx
          · exact Or.inr (Or.inl hsx)
      | some s =>
          right; right
          have hfound := findSessionFn_found now sessions sid s (by rw [hmatch])
          have hs2 : s2 = sessions := by
            have := hfound.2.2.1
            rw [hmatch] at this
            exact this
          subst hs2
          exact ⟨s, m, rfl, rfl, rfl⟩

theorem closeSessions_fst (sessions : List Session) (pid : String) (sid : String) :
    (closeSessions sessions pid sid).1 = sessions ∨
    (closeSessions sessions pid sid).1 = sessions.filter (fun t => !(t.id == sid)) ∨
    (∃ s, sessions.find? (fun t => t.id == sid) = some s ∧
      (closeSessions sessions pid sid).1 = updateSession sessions (closedSession s pid)) := by
  unfold closeSessions
  cases hf : sessions.find? (fun t => t.id == sid) with
  | none => exact Or.inl rfl
  | some s =>
      dsimp only
      by_cases h : (closedSession s pid).peers.isEmpty = true
      · rw [if_pos h]
        exact Or.inr (Or.inl rfl)
      · rw [if_neg h]
        exact Or.inr (Or.inr ⟨s, rfl, rfl⟩)

theorem closedSession_owner (s : Session) (pid : String) :
    ((¬ s.lockOwnerPeerId = some pid) ∧
      (closedSession s pid).lockOwnerPeerId = s.lockOwnerPeerId) ∨
    (closedSession s pid).lockOwnerPeerId = none ∨
    (∃ q, (closedSession s pid).lockOwnerPeerId = some q.id ∧
      q ∈ (closedSession s pid).peers ∧ q.role = Role.controller) := by
  unfold closedSession reassignAfterClose
  by_cases h : (removePeer s pid).lockOwnerPeerId = some pid
  · rw [if_pos h]
    cases hf : (removePeer s pid).peers.find? (fun p => p.role == Role.controller) with
    | none => exact Or.inr (Or.inl rfl)
    | some q =>
        right; right
        refine ⟨q, rfl, ?_, ?_⟩
        · exact List.mem_of_find?_eq_some hf
        · have := List.find?_some hf
          simpa using this
  · rw [if_neg h]
    exact Or.inl ⟨h, rfl⟩

/-! Preservation of well-formedness along every step. -/

theorem gwf_filter_sessions (g : GState) (f : Session → Bool) (hwf : GWF g) :
    GWF ⟨g.sessions.filter f, g.conns⟩ := by
  obtain ⟨h1, h2, h3, h4, h5⟩ := hwf
  refine ⟨?_, ?_, ?_, ?_, h5⟩
  · intro s hs o ho
    exact h1 s (List.mem_of_mem_filter hs) o ho
  · intro s hs
    exact h2 s (List.mem_of_mem_filter hs)
  · exact List.Nodup.sublist ((List.filter_sublist g.sessions).map Session.id) h3
  · intro c hc s hs heq
    exact h4 c hc s (List.mem_of_mem_filter hs) heq

theorem gwf_filter_conns (g : GState) (f : Conn → Bool) (hwf : GWF g) :
    GWF ⟨g.sessions, g.conns.filter f⟩ := by
  obtain ⟨h1, h2, h3, h4, h5⟩ := hwf
  refine ⟨h1, h2, h3, ?_, ?_⟩
  · intro c hc s hs heq
    exact h4 c (List.mem_of_mem_filter hc) s hs heq
  · exact List.Nodup.sublist ((List.filter_sublist g.conns).map _) h5

theorem gwf_init : GWF ⟨[], []⟩ := by
  refine ⟨?_, ?_, ?_, ?_, ?_⟩ <;> simp

theorem gwf_create (g : GState) (sid emu : String) (now ttl : Nat) (hwf : GWF g)
    (hS : ∀ s ∈ g.sessions, s.id ≠ sid) (hC : ∀ c ∈ g.conns, c.sessionId ≠ sid) :
    GWF (createStep g sid emu now ttl) := by
  obtain ⟨h1, h2, h3, h4, h5⟩ := hwf
  refine ⟨?_, ?_, ?_, ?_, h5⟩
  · intro s hs o ho
    rcases List.mem_append.1 hs with hs | hs
    · exact h1 s hs o ho
    · rw [List.mem_singleton] at hs
      subst hs
      cases ho
  · intro s hs
    rcases List.mem_append.1 hs with hs | hs
    · exact h2 s hs
    · rw [List.mem_singleton] at hs
      subst hs
      simp
  · show ((g.sessions ++ [_]).map Session.id).Nodup
    rw [List.map_append, List.nodup_append]
    refine ⟨h3, by simp, ?_⟩
    intro a ha hb
    simp only [List.map_cons, List.map_nil, List.mem_singleton] at hb
    rcases List.mem_map.1 ha with ⟨s, hsmem, hsid⟩
    exact hS s hsmem (by rw [hsid, hb])
  · intro c hc s hs heq
    rcases List.mem_append.1 hs with hs | hs
    · exact h4 c hc s hs heq
    · rw [List.mem_singleton] at hs
      subst hs
      exact absurd heq.symm (hC c hc)

theorem gwf_hs (g : GState) (now : Nat) (vres : Option TokenPayload) (pid : String)
    (so : Bool) (sb : Nat) (msg : Option ClientMsg) (hwf : GWF g)
    (hpidC : ∀ c ∈ g.conns, c.peer.id ≠ pid)
    (hpidS : ∀ s ∈ g.sessions, ∀ q ∈ s.peers, q.id ≠ pid) :
    GWF (hsStep g now vres pid so sb msg) := by
  obtain ⟨h1, h2, h3, h4, h5⟩ := hwf
  rcases handleFirstMessage_shape now g.sessions vres pid so sb msg with
    ⟨hp, hsid, hsx⟩ | ⟨tp, t, s, hvres, hmsg, hfound, he1, he2, he3⟩
  · have hstate : hsStep g now vres pid so sb msg =
        ⟨(handleFirstMessage now g.sessions vres pid so sb msg).1, g.conns⟩ := by
      unfold hsStep
      rw [hp]
      simp
    rw [hstate]
    rcases hsx with hsx | ⟨sid2, hsx⟩
    · rw [hsx]
      exact ⟨h1, h2, h3, h4, h5⟩
    · rw [hsx]
      exact gwf_filter_sessions g _ ⟨h1, h2, h3, h4, h5⟩
  · obtain ⟨hsmem, hsid2, -, -⟩ := findSessionFn_found now g.sessions tp.sessionId s hfound
    have hpeers := hsApplySession_peers s tp pid so sb (hpidS s hsmem)
    have hid := hsApplySession_id s tp pid so sb
    have hstate : hsStep g now vres pid so sb msg =
        ⟨updateSession g.sessions (hsApplySession s tp pid so sb),
          g.conns ++ [⟨hsNewPeer tp pid so sb, tp.sessionId⟩]⟩ := by
      unfold hsStep
      rw [he1, he2, he3]
    rw [hstate]
    refine ⟨?_, ?_, ?_, ?_, ?_⟩
    · intro t2 ht2 o ho
      rcases updateSession_mem ht2 with rfl | ⟨hold, -⟩
      · rw [hpeers, List.map_append]
        rcases hsApplySession_owner s tp pid so sb with howner | ⟨howner, -, -⟩
        · rw [howner] at ho
          exact List.mem_append_left _ (h1 s hsmem o ho)
        · rw [howner] at ho
          injection ho with ho
          subst ho
          simp [hsNewPeer]
      · exact h1 t2 hold o ho
    · intro t2 ht2
      rcases updateSession_mem ht2 with rfl | ⟨hold, -⟩
      · rw [hpeers, List.map_append, List.nodup_append]
        refine ⟨h2 s hsmem, by simp, ?_⟩
        intro a ha hb
        simp only [List.map_cons, List.map_nil, List.mem_singleton, hsNewPeer] at hb
        rcases List.mem_map.1 ha with ⟨q, hq, hqa⟩
        exact hpidS s hsmem q hq (by rw [hqa, hb])
      · exact h2 t2 hold
    · rw [updateSession_map_id]
      exact h3
    · intro c hc t2 ht2 heq
      rcases List.mem_append.1 hc with hc | hc
      · rcases updateSession_mem ht2 with rfl | ⟨hold, -⟩
        · rw [hid] at heq
          rw [hpeers]
          exact List.mem_append_left _ (h4 c hc s hsmem heq)
        · exact h4 c hc t2 hold heq
      · rw [List.mem_singleton] at hc
        subst hc
        rcases updateSession_mem ht2 with rfl | ⟨hold, hne⟩
        · rw [hpeers]
          exact List.mem_append_right _ (List.mem_singleton_self _)
        · exact absurd (by rw [hid, hsid2]; exact heq) hne
    · rw [List.map_append, List.nodup_append]
      refine ⟨h5, by simp, ?_⟩
      intro a ha hb
      simp only [List.map_cons, List.map_nil, List.mem_singleton] at hb
      rcases List.mem_map.1 ha with ⟨c, hcmem, hca⟩
      exact hpidC c hcmem (by rw [← hca] at hb; exact hb)

theorem gwf_message (g : GState) (c : Conn) (now : Nat) (msg : Option ClientMsg)
    (hwf : GWF g) (hc : c ∈ g.conns) : GWF (messageStep g c now msg) := by
  obtain ⟨h1, h2, h3, h4, h5⟩ := hwf
  show GWF ⟨(handleAuthedMessage now g.sessions c.peer c.sessionId msg).1, g.conns⟩
  rcases handleAuthedMessage_fst now g.sessions c.peer c.sessionId msg with
    hx | hx | ⟨s, m, hmsg, hfound, hx⟩
  · rw [hx]
    exact ⟨h1, h2, h3, h4, h5⟩
  · rw [hx]
    exact gwf_filter_sessions g _ ⟨h1, h2, h3, h4, h5⟩
  · obtain ⟨hsmem, hsid2, -, -⟩ := findSessionFn_found now g.sessions c.sessionId s hfound
    have hcp : c.peer ∈ s.peers := h4 c hc s hsmem hsid2
    rw [hx]
    have hfacts : (dispatch s c.peer m).1.peers = s.peers ∧
        (dispatch s c.peer m).1.id = s.id ∧
        ((dispatch s c.peer m).1.lockOwnerPeerId = s.lockOwnerPeerId ∨
          (dispatch s c.peer m).1.lockOwnerPeerId = some c.peer.id ∨
          (dispatch s c.peer m).1.lockOwnerPeerId = none) := by
      rcases dispatch_fst s c.peer m with hd | ⟨-, hd | hd⟩ <;> rw [hd]
      · exact ⟨rfl, rfl, Or.inl rfl⟩
      · exact ⟨rfl, rfl, Or.inr (Or.inl rfl)⟩
      · exact ⟨rfl, rfl, Or.inr (Or.inr rfl)⟩
    refine ⟨?_, ?_, ?_, ?_, h5⟩
    · intro t2 ht2 o ho
      rcases updateSession_mem ht2 with rfl | ⟨hold, -⟩
      · rw [hfacts.1]
        rcases hfacts.2.2 with hw | hw | hw <;> rw [hw] at ho
        · exact h1 s hsmem o ho
        · injection ho with ho
          subst ho
          exact List.mem_map_of_mem Peer.id hcp
        · cases ho
      · exact h1 t2 hold o ho
    · intro t2 ht2
      rcases updateSession_mem ht2 with rfl | ⟨hold, -⟩
      · rw [hfacts.1]
        exact h2 s hsmem
      · exact h2 t2 hold
    · rw [updateSession_map_id]
      exact h3
    · intro c2 hc2 t2 ht2 heq
      rcases updateSession_mem ht2 with rfl | ⟨hold, -⟩
      · rw [hfacts.2.1] at heq
        rw [hfacts.1]
        exact h4 c2 hc2 s hsmem heq
      · exact h4 c2 hc2 t2 hold heq

theorem gwf_close (g : GState) (c : Conn) (hwf : GWF g) : GWF (closeStep g c) := by
  obtain ⟨h1, h2, h3, h4, h5⟩ := hwf
  show GWF ⟨(closeSessions g.sessions c.peer.id c.sessionId).1,
    g.conns.filter (fun d => !(d.peer.id == c.peer.id))⟩
  rcases closeSessions_fst g.sessions c.peer.id c.sessionId with hx | hx | ⟨s, hfind, hx⟩
  · rw [hx]
    exact gwf_filter_conns g _ ⟨h1, h2, h3, h4, h5⟩
  · rw [hx]
    exact gwf_filter_conns ⟨g.sessions.filter _, g.conns⟩ _
      (gwf_filter_sessions g _ ⟨h1, h2, h3, h4, h5⟩)
  · have hsmem := List.mem_of_find?_eq_some hfind
    have hsid2 : s.id = c.sessionId := by
      have := List.find?_some hfind
      simpa using this
    rw [hx]
    have hcspeers := closedSession_peers s c.peer.id
    have hcsid := closedSession_id s c.peer.id
    refine ⟨?_, ?_, ?_, ?_, ?_⟩
    · intro t2 ht2 o ho
      rcases updateSession_mem ht2 with rfl | ⟨hold, -⟩
      · rcases closedSession_owner s c.peer.id with ⟨hne, hw⟩ | hw | ⟨q, hw, hqmem, -⟩ <;>
          rw [hw] at ho
        · have homem := h1 s hsmem o ho
          rcases List.mem_map.1 homem with ⟨p, hp, hpo⟩
          rw [hcspeers]
          refine List.mem_map.2 ⟨p, ?_, hpo⟩
          rw [List.mem_filter]
          refine ⟨hp, ?_⟩
          simp only [Bool.not_eq_eq_eq_not, Bool.not_true, beq_eq_false_iff_ne, ne_eq]
          intro hpc
          apply hne
          rw [ho, ← hpo, hpc]
        · cases ho
        · injection ho with ho
          subst ho
          exact List.mem_map_of_mem Peer.id hqmem
      · exact h1 t2 hold o ho
    · intro t2 ht2
      rcases updateSession_mem ht2 with rfl | ⟨hold, -⟩
      · rw [hcspeers]
        exact List.Nodup.sublist ((List.filter_sublist s.peers).map Peer.id) (h2 s hsmem)
      · exact h2 t2 hold
    · rw [updateSession_map_id]
      exact h3
    · intro d hd t2 ht2 heq
      have hdmem := List.mem_of_mem_filter hd
      have hdcond : ¬ d.peer.id = c.peer.id := by
        have := (List.mem_filter.1 hd).2
        simpa using this
      rcases updateSession_mem ht2 with rfl | ⟨hold, -⟩
      · rw [hcsid] at heq
        have := h4 d hdmem s hsmem heq
        rw [hcspeers]
        rw [List.mem_filter]
        refine ⟨this, ?_⟩
        simpa using hdcond
      · exact h4 d hdmem t2 hold heq
    · exact List.Nodup.sublist ((List.filter_sublist g.conns).map _) h5

/-- Every reachable registry state is well formed. -/
theorem gwf_reachable (ok : MsgPolicy) (g : GState) (h : Reachable ok g) : GWF g := by
  induction h with
  | init => exact gwf_init
  | create g sid emu now ttl hS hC h ih => exact gwf_create g sid emu now ttl ih hS hC
  | handshake g now vres pid so sb msg hpidC hpidS h ih =>
      exact gwf_hs g now vres pid so sb msg ih hpidC hpidS
  | message g c now msg hc hok h ih => exact gwf_message g c now msg ih hc
  | closeEv g c hc h ih => exact gwf_close g c ih

/-- Under the policy that source peers never send lock envelopes, the lock
owner is never a source-role peer in any reachable state. -/
theorem ownerNotAgent_reachable (g : GState) (h : Reachable nonSourceLock g) :
    OwnerNotAgent g := by
  induction h with
  | init => intro s hs; cases hs
  | create g sid emu now ttl hS hC h ih =>
      intro s hs p hp ho
      rcases List.mem_append.1 hs with hs | hs
      · exact ih s hs p hp ho
      · rw [List.mem_singleton] at hs
        subst hs
        cases ho
  | handshake g now vres pid so sb msg hpidC hpidS h ih =>
      obtain ⟨h1, h2, h3, h4, h5⟩ := gwf_reachable nonSourceLock g h
      intro s2 hs2 p hp ho
      change s2 ∈ (handleFirstMessage now g.sessions vres pid so sb msg).1 at hs2
      rcases handleFirstMessage_shape now g.sessions vres pid so sb msg with
        ⟨hp0, hsid0, hsx⟩ | ⟨tp, t, s, hvres, hmsg, hfound, he1, he2, he3⟩
      · rcases hsx with hsx | ⟨sid2, hsx⟩ <;> rw [hsx] at hs2
        · exact ih s2 hs2 p hp ho
        · exact ih s2 (List.mem_of_mem_filter hs2) p hp ho
      · obtain ⟨hsmem, hsid2, -, -⟩ := findSessionFn_found now g.sessions tp.sessionId s hfound
        have hpeers := hsApplySession_peers s tp pid so sb (hpidS s hsmem)
        rw [he1] at hs2
        rcases updateSession_mem hs2 with rfl | ⟨hold, -⟩
        · rw [hpeers] at hp
          rcases hsApplySession_owner s tp pid so sb with howner | ⟨howner, hnone2, hrole⟩
          · rw [howner] at ho
            rcases List.mem_append.1 hp with hp | hp
            · exact ih s hsmem p hp ho
            · rw [List.mem_singleton] at hp
              subst hp
              exfalso
              have hmem := h1 s hsmem _ ho
              rcases List.mem_map.1 hmem with ⟨q, hq, hqid⟩
              exact hpidS s hsmem q hq hqid
          · rw [howner] at ho
            injection ho with ho
            rcases List.mem_append.1 hp with hp | hp
            · exact absurd ho.symm (hpidS s hsmem p hp)
            · rw [List.mem_singleton] at hp
              subst hp
              intro hag
              rw [show (hsNewPeer tp pid so sb).role = tp.role from rfl, hrole] at hag
              cases hag
        · exact ih s2 hold p hp ho
  | message g c now msg hc hok h ih =>
      obtain ⟨h1, h2, h3, h4, h5⟩ := gwf_reachable nonSourceLock g h
      intro s2 hs2 p hp ho
      change s2 ∈ (handleAuthedMessage now g.sessions c.peer c.sessionId msg).1 at hs2
      rcases handleAuthedMessage_fst now g.sessions c.peer c.sessionId msg with
        hx | hx | ⟨s, m, hmsg, hfound, hx⟩
      · rw [hx] at hs2
        exact ih s2 hs2 p hp ho
      · rw [hx] at hs2
        exact ih s2 (List.mem_of_mem_filter hs2) p hp ho
      · obtain ⟨hsmem, hsid2, -, -⟩ := findSessionFn_found now g.sessions c.sessionId s hfound
        have hcp : c.peer ∈ s.peers := h4 c hc s hsmem hsid2
        rw [hx] at hs2
        rcases updateSession_mem hs2 with rfl | ⟨hold, -⟩
        · rcases dispatch_fst s c.peer m with hd | ⟨⟨a, hma⟩, hd | hd⟩
          · rw [hd] at hp ho
            exact ih s hsmem p hp ho
          · rw [hd] at hp ho
            have hrole : ¬ c.peer.role = Role.agent :=
              hok ⟨a, by rw [hmsg, hma]⟩
            have ho2 : some c.peer.id = some p.id := ho
            injection ho2 with ho2
            have hp2 : p ∈ s.peers := hp
            have hpeq : p = c.peer := peer_eq_of_id_eq (h2 s hsmem) hp2 hcp ho2.symm
            rw [hpeq]
            exact hrole
          · rw [hd] at ho
            have ho2 : (none : Option String) = some p.id := ho
            cases ho2
        · exact ih s2 hold p hp ho
  | closeEv g c hc h ih =>
      obtain ⟨h1, h2, h3, h4, h5⟩ := gwf_reachable nonSourceLock g h
      intro s2 hs2 p hp ho
      change s2 ∈ (closeSessions g.sessions c.peer.id c.sessionId).1 at hs2
      rcases closeSessions_fst g.sessions c.peer.id c.sessionId with hx | hx | ⟨s, hfind, hx⟩
      · rw [hx] at hs2
        exact ih s2 hs2 p hp ho
      · rw [hx] at hs2
        exact ih s2 (List.mem_of_mem_filter hs2) p hp ho
      · have hsmem := List.mem_of_find?_eq_some hfind
        rw [hx] at hs2
        rcases updateSession_mem hs2 with rfl | ⟨hold, -⟩
        · rcases closedSession_owner s c.peer.id with ⟨hne, hw⟩ | hw | ⟨q, hw, hqmem, hqrole⟩
          · rw [hw] at ho
            have hp2 : p ∈ s.peers := by
              rw [closedSession_peers] at hp
              exact List.mem_of_mem_filter hp
            exact ih s hsmem p hp2 ho
          · rw [hw] at ho
            cases ho
          · rw [hw] at ho
            injection ho with ho
            have hnd : ((closedSession s c.peer.id).peers.map Peer.id).Nodup := by
              rw [closedSession_peers]
              exact List.Nodup.sublist ((List.filter_sublist s.peers).map Peer.id) (h2 s hsmem)
            have hpeq : p = q := peer_eq_of_id_eq hnd hp hqmem ho.symm
            rw [hpeq, hqrole]
            simp
        · exact ih s2 hold p hp ho

/-- Trace witnesses: a controller joining a fresh session is a reachable
state under any policy. -/
theorem reach_c1G_poly (ok : MsgPolicy) : Reachable ok c1G := by
  have h0 : Reachable ok ⟨[], []⟩ := Reachable.init
  have h1 : Reachable ok (createStep ⟨[], []⟩ "S" "emu" 0 60) :=
    Reachable.create _ "S" "emu" 0 60 (by intro s hs; cases hs) (by intro c hc; cases hc) h0
  exact Reachable.handshake _ 1 (some ⟨"S", Role.controller⟩) "P" true 0
    (some (ClientMsg.hello "t"))
    (by intro c hc; simp [createStep] at hc)
    (by intro s hs q hq; simp [createStep] at hs; subst hs; simp at hq)
    h1

/-- An agent joining a fresh session is a reachable state. -/
theorem reach_c2G_poly (ok : MsgPolicy) : Reachable ok c2G := by
  have h0 : Reachable ok ⟨[], []⟩ := Reachable.init
  have h1 : Reachable ok (createStep ⟨[], []⟩ "S" "emu" 0 60) :=
    Reachable.create _ "S" "emu" 0 60 (by intro s hs; cases hs) (by intro c hc; cases hc) h0
  exact Reachable.handshake _ 1 (some ⟨"S", Role.agent⟩) "A" true 0
    (some (ClientMsg.hello "t"))
    (by intro c hc; simp [createStep] at hc)
    (by intro s hs q hq; simp [createStep] at hs; subst hs; simp at hq)
    h1

theorem reach_c2G2 : Reachable anyMsg c2G2 :=
  Reachable.message c2G ⟨⟨"A", Role.agent, true, 0⟩, "S"⟩ 2
    (some (ClientMsg.lockMsg LockAction.request)) (by decide) trivial
    (reach_c2G_poly anyMsg)

theorem reach_c2AmG : Reachable nonSourceLock c2AmG :=
  Reachable.message c1G ⟨⟨"P", Role.controller, true, 0⟩, "S"⟩ 2
    (some (ClientMsg.lockMsg LockAction.request)) (by decide)
    (fun _ => by decide) (reach_c1G_poly nonSourceLock)

/-! Claim C1: lock-owner invariant. -/

/-- C1: in every reachable registry state, at most one peer of a session
holds the lock, and a set lockOwnerPeerId always references a peer present
in that session's peers map. -/
theorem mirror_C1 (ok : MsgPolicy) (g : GState) (h : Reachable ok g) (s : Session)
    (hs : s ∈ g.sessions) :
    (∀ p q : Peer, p ∈ s.peers → q ∈ s.peers → s.lockOwnerPeerId = some p.id →
        s.lockOwnerPeerId = some q.id → p = q) ∧
    (∀ o, s.lockOwnerPeerId = some o → o ∈ s.peers.map Peer.id) := by
  obtain ⟨h1, h2, -, -, -⟩ := gwf_reachable ok g h
  refine ⟨?_, h1 s hs⟩
  intro p q hp hq hpo hqo
  rw [hpo] at hqo
  injection hqo with hqo
  exact peer_eq_of_id_eq (h2 s hs) hp hq hqo

theorem mirror_C1_witness : "P" ∈ c1Session.peers.map Peer.id :=
  (mirror_C1 anyMsg c1G (reach_c1G_poly anyMsg) c1Session (by decide)).2 "P" rfl

/-! Claim C2: the source role and the lock. -/

/-- C2 counterexample: a reachable state (agent joins a fresh session and
sends a lock request, which the code grants without any role check) in
which the lock owner is a source-role peer. -/
theorem mirror_C2_counterexample :
    Reachable anyMsg c2G2 ∧
    ∃ s ∈ c2G2.sessions, ∃ p ∈ s.peers,
      s.lockOwnerPeerId = some p.id ∧ p.role = Role.agent :=
  ⟨reach_c2G2, by decide⟩

/-- C2 amended: handshake auto-acquire and disconnect reassignment never
give the lock to a source-role peer, and in every state reachable by
traces in which source peers send no lock envelopes, the lock owner is
never a source-role peer; an explicit lock request from a source peer,
however, is granted like any other. -/
theorem mirror_C2_amended (g : GState) (h : Reachable nonSourceLock g) :
    ∀ s ∈ g.sessions, ∀ p ∈ s.peers, s.lockOwnerPeerId = some p.id →
      ¬ p.role = Role.agent :=
  ownerNotAgent_reachable g h

theorem mirror_C2_amended_witness :
    ¬ (⟨"P", Role.controller, true, 0⟩ : Peer).role = Role.agent :=
  mirror_C2_amended c2AmG reach_c2AmG c1Session (by decide)
    ⟨"P", Role.controller, true, 0⟩ (by decide) rfl

end Mirror
